import Mathlib

/-!
Verification of the PICKL result summarizer (`generate-pr-comment`) and the
execution-event aggregator (`VerboseFormatter`).

The summarizer is a pure fold over a parsed Cucumber JSON report; it is
embedded here as Lean functions over lists, with the mutable `TestResults`
record threaded explicitly.  File access is embedded as an `Option` input to
an `Except`-valued function.  JavaScript real-number arithmetic in the two
formatting helpers (`toFixed`, `Math.floor` on `Number`) is modelled by exact
integer arithmetic on nanosecond / count inputs: `Math.floor(n / 1e9)` is
`n / 10^9` in natural division, and `x.toFixed(k)` rounds half-up to `k`
decimal digits.

The aggregator is a set of event callbacks over private counters; it is
embedded as a state-passing step function over an explicit `AggState`, with
the external `eventDataCollector` lookup abstracted as a function
`String → Option TestCaseAttempt` and terminal output accumulated in the
state.
-/

/-! ## Summarizer data model (interfaces of the report script) -/

/-- Embeds the `result` field of `CucumberStep`:
`{ status: string, duration?: number, error_message?: string }`. -/
structure StepResult where
  status : String
  duration : Option Nat
  error_message : Option String
  deriving DecidableEq

/-- Embeds `interface CucumberStep`. -/
structure CucumberStep where
  result : StepResult
  deriving DecidableEq

/-- Embeds `interface CucumberScenario` (a feature element; only elements with
`type === "scenario"` are counted).  Tags are carried but never read. -/
structure CucumberScenarioElem where
  name : String
  type : String
  steps : List CucumberStep
  tags : Option (List String)
  deriving DecidableEq

/-- Embeds `interface CucumberFeature`. -/
structure CucumberFeature where
  name : String
  elements : List CucumberScenarioElem
  deriving DecidableEq

/-- Embeds `interface FeatureSummary`. -/
structure FeatureSummary where
  name : String
  scenarios : Nat
  passed : Nat
  failed : Nat
  skipped : Nat
  deriving DecidableEq

/-- Embeds `interface TestResults`. -/
structure TestResults where
  totalScenarios : Nat
  passedScenarios : Nat
  failedScenarios : Nat
  skippedScenarios : Nat
  totalSteps : Nat
  passedSteps : Nat
  failedSteps : Nat
  skippedSteps : Nat
  duration : Nat
  features : List FeatureSummary
  deriving DecidableEq

/-! ## Summarizer operations -/

/-- Embeds `processStep(step, results)`: the mutation of `results` is returned. -/
def processStep (step : CucumberStep) (results : TestResults) : TestResults :=
  let r := { results with
    totalSteps := results.totalSteps + 1
    duration := results.duration + step.result.duration.getD 0 }
  if step.result.status = "passed" then
    { r with passedSteps := r.passedSteps + 1 }
  else if step.result.status = "failed" then
    { r with failedSteps := r.failedSteps + 1 }
  else if step.result.status = "skipped" then
    { r with skippedSteps := r.skippedSteps + 1 }
  else
    r

/-- The return type of `determineScenarioStatus`
(the union of the literals passed, failed, skipped). -/
inductive ScenStatus where
  | passed
  | failed
  | skipped
  deriving DecidableEq

/-- Embeds `determineScenarioStatus(steps)`. -/
def determineScenarioStatus (steps : List CucumberStep) : ScenStatus :=
  if steps.any (fun step => step.result.status == "failed") then
    ScenStatus.failed
  else if steps.any (fun step => step.result.status == "skipped") then
    ScenStatus.skipped
  else
    ScenStatus.passed

/-- Embeds `updateScenarioCounts(status, featureSummary, results)`: both
mutated records are returned.  The source dispatches `if / else if / else`,
so the final `else` is the skipped bucket. -/
def updateScenarioCounts (status : ScenStatus) (featureSummary : FeatureSummary)
    (results : TestResults) : FeatureSummary × TestResults :=
  if status = ScenStatus.passed then
    ({ featureSummary with passed := featureSummary.passed + 1 },
     { results with passedScenarios := results.passedScenarios + 1 })
  else if status = ScenStatus.failed then
    ({ featureSummary with failed := featureSummary.failed + 1 },
     { results with failedScenarios := results.failedScenarios + 1 })
  else
    ({ featureSummary with skipped := featureSummary.skipped + 1 },
     { results with skippedScenarios := results.skippedScenarios + 1 })

/-- Embeds one iteration of the `for (const scenario of feature.elements)`
loop body in `parseTestResults`: the `continue` guard on the element type,
the two count increments, the step loop, and the scenario-status update. -/
def processElement (acc : FeatureSummary × TestResults)
    (scn : CucumberScenarioElem) : FeatureSummary × TestResults :=
  if scn.type ≠ "scenario" then
    acc
  else
    let featureSummary := { acc.1 with scenarios := acc.1.scenarios + 1 }
    let results := { acc.2 with totalScenarios := acc.2.totalScenarios + 1 }
    let results := scn.steps.foldl (fun r step => processStep step r) results
    updateScenarioCounts (determineScenarioStatus scn.steps) featureSummary results

/-- Embeds one iteration of the `for (const feature of features)` loop in
`parseTestResults`: a fresh `featureSummary`, the element loop, and the
conditional push onto `results.features`. -/
def processFeature (results : TestResults) (feature : CucumberFeature) : TestResults :=
  let start : FeatureSummary :=
    { name := feature.name, scenarios := 0, passed := 0, failed := 0, skipped := 0 }
  let p := feature.elements.foldl processElement (start, results)
  if p.1.scenarios > 0 then
    { p.2 with features := p.2.features ++ [p.1] }
  else
    p.2

/-- The zero-initialised `TestResults` literal in `parseTestResults`. -/
def emptyResults : TestResults :=
  { totalScenarios := 0, passedScenarios := 0, failedScenarios := 0
    skippedScenarios := 0, totalSteps := 0, passedSteps := 0, failedSteps := 0
    skippedSteps := 0, duration := 0, features := [] }

/-- The pure body of `parseTestResults` after the report has been read and
parsed: the nested feature loop. -/
def computeResults (features : List CucumberFeature) : TestResults :=
  features.foldl processFeature emptyResults

/-- Embeds `parseTestResults()` including its file precondition: the
`existsSync` / `readFile` pair is modelled by an `Option` input (`none` means
the report file is absent), and `throw new Error(...)` by `Except.error`
carrying the thrown message. -/
def parseTestResults (doc : Option (List CucumberFeature)) :
    Except String TestResults :=
  match doc with
  | none => Except.error "Report file not found: test-results/cucumber-report.json"
  | some features => Except.ok (computeResults features)

/-! ## IEEE-754 binary64 model (JavaScript number semantics)

The two formatting helpers of the summarizer compute on JavaScript numbers,
which are IEEE-754 binary64 values.  The model below represents every double
by its exact rational value: `flPos` is round-to-nearest (ties to even) to 53
significand bits, which is exactly what one JavaScript division or
multiplication applies to the exact result, and `toFixed1` / `toFixed2` are
the ECMA-262 fixed-notation renderings of such a value (the closest scaled
integer, ties taking the larger).  Integer counters and nanosecond totals are
carried as `Nat`, matching their exact double representation below `2^53`;
the model makes no overflow clamp, as no value reachable from such counters
comes near the binary64 range limit. -/

/-- Nearest integer to a rational, ties to even: the IEEE-754 default
rounding applied to a scaled significand. -/
def roundHalfEven (x : ℚ) : ℤ :=
  let f := ⌊x⌋
  if x - f < 1 / 2 then f
  else if 1 / 2 < x - f then f + 1
  else if f % 2 = 0 then f else f + 1

/-- Floor of the base-two logarithm of `num / den`, both positive: the
binary64 exponent of the quotient before subnormal clamping. -/
def ratExp (num den : ℕ) : ℤ :=
  let e : ℤ := (Nat.log2 num : ℤ) - (Nat.log2 den : ℤ)
  if (2 : ℚ) ^ e ≤ (num : ℚ) / (den : ℚ) then e else e - 1

/-- Rounds a nonnegative rational to the nearest IEEE-754 binary64 value
(round-to-nearest, ties to even), returned as its exact rational value: the
exponent is clamped below at `-1022` (subnormal range, gradual underflow to
zero included).  A single JavaScript `/` or `*` on doubles produces exactly
`flPos` of the exact result. -/
def flPos (q : ℚ) : ℚ :=
  if q ≤ 0 then 0
  else
    let e : ℤ := max (ratExp q.num.toNat q.den) (-1022)
    ((roundHalfEven (q * 2 ^ ((52 : ℤ) - e)) : ℤ) : ℚ) * 2 ^ (e - (52 : ℤ))

/-- ECMA-262 `Number.prototype.toFixed(1)` on the exact rational value of a
nonnegative double below `10^21`: the integer closest to `10 * x`, ties
taking the larger, rendered with one fraction digit. -/
def toFixed1 (x : ℚ) : String :=
  let t : ℕ := (⌊x * 10 + 1 / 2⌋).toNat
  toString (t / 10) ++ "." ++ toString (t % 10)

/-- ECMA-262 `Number.prototype.toFixed(2)` on the exact rational value of a
nonnegative double below `10^21`: the integer closest to `100 * x`, ties
taking the larger, rendered with two fraction digits. -/
def toFixed2 (x : ℚ) : String :=
  let c : ℕ := (⌊x * 100 + 1 / 2⌋).toNat
  let frac := c % 100
  toString (c / 100) ++ "." ++
    (if frac < 10 then "0" ++ toString frac else toString frac)

/-- Embeds `formatDuration(nanoseconds)` with binary64 semantics:
`seconds = nanoseconds / 1e9` is one double division, so its value is
`flPos` of the exact quotient; the comparison with 60 is exact on doubles;
`seconds.toFixed(2)` is `toFixed2` of that value; `Math.floor(seconds / 60)`
floors the rounded double quotient; and `Math.floor(seconds % 60)` is
`⌊seconds⌋ % 60`, because the JavaScript remainder of nonnegative doubles is
computed exactly. -/
def formatDuration (nanoseconds : Nat) : String :=
  let seconds : ℚ := flPos ((nanoseconds : ℚ) / 1000000000)
  if seconds < 60 then
    toFixed2 seconds ++ "s"
  else
    let minutes : ℤ := ⌊flPos (seconds / 60)⌋
    let remainingSeconds : ℤ := ⌊seconds⌋ % 60
    toString minutes ++ "m " ++ toString remainingSeconds ++ "s"

/-- Embeds the `passRate` expression in `generateComment(results)` with
binary64 semantics: a conditional ternary rendering
`((passedScenarios / totalScenarios) * 100).toFixed(1)` when
`totalScenarios > 0` and the literal `0.0` otherwise.  The division and the
multiplication each round once to binary64, and `toFixed(1)` renders the
resulting double. -/
def passRate (results : TestResults) : String :=
  if results.totalScenarios > 0 then
    toFixed1 (flPos (flPos ((results.passedScenarios : ℚ) /
      (results.totalScenarios : ℚ)) * 100))
  else
    "0.0"

/-- Follows the words of claim C8, not the source: the exact two-decimal
half-up rendering of the true quotient `nanoseconds / 10^9` (and the exact
floors for the minutes form).  The program instead renders the binary64
value of the quotient, and the two disagree, e.g. at 15000000 ns. -/
def exactFormatDuration (nanoseconds : Nat) : String :=
  if nanoseconds < 60 * 1000000000 then
    let centis := (nanoseconds + 5000000) / 10000000
    let frac := centis % 100
    toString (centis / 100) ++ "." ++
      (if frac < 10 then "0" ++ toString frac else toString frac) ++ "s"
  else
    let minutes := nanoseconds / (60 * 1000000000)
    let remainingSeconds := nanoseconds / 1000000000 % 60
    toString minutes ++ "m " ++ toString remainingSeconds ++ "s"

/-- Follows the words of claim C7, not the source: the exact one-decimal
half-up rendering of the true percentage `100 * passed / total` (the half-up
rounding of the rate in tenths of a percent is
`(passed * 2000 + total) / (2 * total)` in natural division).  The program
instead renders the binary64 percentage, and the two disagree, e.g. at 23
passed of 80 total. -/
def exactPassRate (results : TestResults) : String :=
  if results.totalScenarios > 0 then
    let tenths :=
      (results.passedScenarios * 2000 + results.totalScenarios) /
        (2 * results.totalScenarios)
    toString (tenths / 10) ++ "." ++ toString (tenths % 10)
  else
    "0.0"

/-! ## Aggregator data model (`VerboseFormatter` and `@cucumber/messages`) -/

/-- The step-result status enumeration of `@cucumber/messages`. -/
inductive TestStepResultStatus where
  | unknown
  | passed
  | skipped
  | pending
  | undef
  | ambiguous
  | failed
  deriving DecidableEq

/-- A pickle (gherkin) step as read by the formatter: `{ id, text }`.
`text` is optional and may be empty; the source guards with the JS truthiness
check `gherkinStep?.text`, under which both absence and `""` fail. -/
structure PickleStep where
  id : String
  text : Option String
  deriving DecidableEq

/-- A pickle as read by the formatter: `{ name, steps }`. -/
structure Pickle where
  name : String
  steps : List PickleStep
  deriving DecidableEq

/-- A compiled test step as read by the formatter: `{ id, pickleStepId? }`.
Hook steps carry no `pickleStepId`. -/
structure TestStep where
  id : String
  pickleStepId : Option String
  deriving DecidableEq

/-- The compiled test case as read by the formatter: `testCase?.testSteps?`
are both optional in the message schema. -/
structure TestCaseRec where
  testSteps : Option (List TestStep)
  deriving DecidableEq

/-- A step result as read by the formatter. -/
structure TestStepResult where
  status : TestStepResultStatus
  deriving DecidableEq

/-- The value produced by `eventDataCollector.getTestCaseAttempt(id)`. -/
structure TestCaseAttempt where
  pickle : Pickle
  testCase : Option TestCaseRec
  worstTestStepResult : TestStepResult
  deriving DecidableEq

/-- The external `eventDataCollector` lookup: `getTestCaseAttempt` returns the
attempt, or nothing for an unknown identifier. -/
abbrev EventDataCollector := String → Option TestCaseAttempt

/-- Embeds `messages.TestCaseStarted` (the fields the formatter reads). -/
structure TestCaseStartedEv where
  id : String
  deriving DecidableEq

/-- Embeds `messages.TestCaseFinished` (the fields the formatter reads). -/
structure TestCaseFinishedEv where
  testCaseStartedId : String
  deriving DecidableEq

/-- Embeds `messages.TestStepStarted` (the fields the formatter reads). -/
structure TestStepStartedEv where
  testCaseStartedId : String
  testStepId : String
  deriving DecidableEq

/-- Embeds `messages.TestStepFinished` (the fields the formatter reads). -/
structure TestStepFinishedEv where
  testCaseStartedId : String
  testStepId : String
  testStepResult : TestStepResult
  deriving DecidableEq

/-- The private mutable fields of `VerboseFormatter`, plus the sequence of
strings passed to `this.log` (the only output channel of the formatter). -/
structure AggState where
  passedCount : Nat
  failedCount : Nat
  skippedCount : Nat
  totalSteps : Nat
  startTime : Nat
  scenariosPassed : Nat
  scenariosFailed : Nat
  scenariosSkipped : Nat
  totalScenarios : Nat
  output : List String
  deriving DecidableEq

/-- The field initialisers of `VerboseFormatter` (all counters zero). -/
def initialAggState : AggState :=
  { passedCount := 0, failedCount := 0, skippedCount := 0, totalSteps := 0
    startTime := 0, scenariosPassed := 0, scenariosFailed := 0
    scenariosSkipped := 0, totalScenarios := 0, output := [] }

/-- Embeds `this.log(text)`: appends one emission to the output channel. -/
def emitLog (text : String) (st : AggState) : AggState :=
  { st with output := st.output ++ [text] }

/-! ## Aggregator operations -/

/-- Embeds `logTestCaseStarted(testCaseStarted)`. -/
def logTestCaseStarted (collector : EventDataCollector) (ev : TestCaseStartedEv)
    (st : AggState) : AggState :=
  match collector ev.id with
  | some testCase => emitLog ("\n▶️  Running: " ++ testCase.pickle.name ++ "\n") st
  | none => st

/-- Embeds `trackScenarioResult(testCaseFinished)`. -/
def trackScenarioResult (collector : EventDataCollector) (ev : TestCaseFinishedEv)
    (st : AggState) : AggState :=
  match collector ev.testCaseStartedId with
  | none => st
  | some testCase =>
    let st := { st with totalScenarios := st.totalScenarios + 1 }
    let status := testCase.worstTestStepResult.status
    if status = TestStepResultStatus.passed then
      { st with scenariosPassed := st.scenariosPassed + 1 }
    else if status = TestStepResultStatus.failed then
      { st with scenariosFailed := st.scenariosFailed + 1 }
    else if status = TestStepResultStatus.skipped then
      { st with scenariosSkipped := st.scenariosSkipped + 1 }
    else
      st

/-- Embeds `testCase.testCase?.testSteps?.find(s => s.id === stepId)`. -/
def findTestStep (testCase : TestCaseAttempt) (stepId : String) : Option TestStep :=
  (testCase.testCase.bind fun tc => tc.testSteps).bind fun steps =>
    steps.find? (fun s => s.id == stepId)

/-- Embeds `getStatusIcon(status)`. -/
def getStatusIcon (status : TestStepResultStatus) : String :=
  if status = TestStepResultStatus.passed then "✅"
  else if status = TestStepResultStatus.failed then "❌"
  else if status = TestStepResultStatus.skipped then "⊘"
  else "⚠️"

/-- Embeds `updateStepCounts(status)`. -/
def updateStepCounts (status : TestStepResultStatus) (st : AggState) : AggState :=
  let st := { st with totalSteps := st.totalSteps + 1 }
  if status = TestStepResultStatus.passed then
    { st with passedCount := st.passedCount + 1 }
  else if status = TestStepResultStatus.failed then
    { st with failedCount := st.failedCount + 1 }
  else if status = TestStepResultStatus.skipped then
    { st with skippedCount := st.skippedCount + 1 }
  else
    st

/-- Embeds `logTestStepStarted(testStepStarted)`.  The JS truthiness guards
`testStep?.pickleStepId` and `gherkinStep?.text` fail on both a missing and
an empty string value. -/
def logTestStepStarted (collector : EventDataCollector) (ev : TestStepStartedEv)
    (st : AggState) : AggState :=
  match collector ev.testCaseStartedId with
  | none => st
  | some testCase =>
    match findTestStep testCase ev.testStepId with
    | none => st
    | some testStep =>
      match testStep.pickleStepId with
      | none => st
      | some pid =>
        if pid = "" then st
        else
          match testCase.pickle.steps.find? (fun s => s.id == pid) with
          | none => st
          | some gherkinStep =>
            match gherkinStep.text with
            | none => st
            | some text =>
              if text = "" then st
              else emitLog ("  ⏳ " ++ text) st

/-- Embeds `logTestStepFinished(testStepFinished)`: the three early returns,
then icon selection, counting, and the in-place redraw emission. -/
def logTestStepFinished (collector : EventDataCollector) (ev : TestStepFinishedEv)
    (st : AggState) : AggState :=
  match collector ev.testCaseStartedId with
  | none => st
  | some testCase =>
    match findTestStep testCase ev.testStepId with
    | none => st
    | some testStep =>
      match testStep.pickleStepId with
      | none => st
      | some pid =>
        if pid = "" then st
        else
          match testCase.pickle.steps.find? (fun s => s.id == pid) with
          | none => st
          | some gherkinStep =>
            match gherkinStep.text with
            | none => st
            | some text =>
              if text = "" then st
              else
                let status := ev.testStepResult.status
                let icon := getStatusIcon status
                let st := updateStepCounts status st
                emitLog ("\r\x1b[K  " ++ icon ++ " " ++ text ++ "\n") st

/-- Renders `((now - startTime) / 1000).toFixed(3)` exactly: a millisecond
difference printed as seconds with three fraction digits. -/
def fmtMillisAsSeconds (ms : Nat) : String :=
  let frac := ms % 1000
  let pad :=
    if frac < 10 then "00" ++ toString frac
    else if frac < 100 then "0" ++ toString frac
    else toString frac
  toString (ms / 1000) ++ "." ++ pad

/-- Embeds `logTestRunFinished()`; `Date.now()` is passed in as `now`. -/
def logTestRunFinished (now : Nat) (st : AggState) : AggState :=
  let duration := fmtMillisAsSeconds (now - st.startTime)
  let st := emitLog "\nTest Execution Summary:" st
  let st := emitLog ("\n" ++ toString st.totalScenarios ++ " scenarios (" ++
    toString st.scenariosPassed ++ " passed") st
  let st := if st.scenariosFailed > 0 then
      emitLog (", " ++ toString st.scenariosFailed ++ " failed") st
    else st
  let st := if st.scenariosSkipped > 0 then
      emitLog (", " ++ toString st.scenariosSkipped ++ " skipped") st
    else st
  let st := emitLog ")\n" st
  let st := emitLog (toString st.totalSteps ++ " steps (" ++
    toString st.passedCount ++ " passed") st
  let st := if st.failedCount > 0 then
      emitLog (", " ++ toString st.failedCount ++ " failed") st
    else st
  let st := if st.skippedCount > 0 then
      emitLog (", " ++ toString st.skippedCount ++ " skipped") st
    else st
  emitLog (")\n" ++ duration ++ "s\n") st

/-- One incoming envelope, holding the single event variant the constructor
handler dispatches on. -/
inductive Envelope where
  | testRunStarted (timestamp : Nat)
  | testCaseStarted (ev : TestCaseStartedEv)
  | testCaseFinished (ev : TestCaseFinishedEv)
  | testStepStarted (ev : TestStepStartedEv)
  | testStepFinished (ev : TestStepFinishedEv)
  | testRunFinished (timestamp : Nat)
  deriving DecidableEq

/-- Embeds the envelope dispatch in the `VerboseFormatter` constructor. -/
def handleEnvelope (collector : EventDataCollector) (st : AggState)
    (env : Envelope) : AggState :=
  match env with
  | Envelope.testRunStarted ts => { st with startTime := ts }
  | Envelope.testCaseStarted ev => logTestCaseStarted collector ev st
  | Envelope.testCaseFinished ev => trackScenarioResult collector ev st
  | Envelope.testStepStarted ev => logTestStepStarted collector ev st
  | Envelope.testStepFinished ev => logTestStepFinished collector ev st
  | Envelope.testRunFinished ts => logTestRunFinished ts st

/-- Runs the formatter over a whole event trace from its initial state. -/
def runAgg (collector : EventDataCollector) (trace : List Envelope) : AggState :=
  trace.foldl (handleEnvelope collector) initialAggState

/-! ## Ghost functions used to state the aggregator invariants -/

/-- The resolution chain of `logTestStepFinished`, as a pure query: returns
the status of the finished step exactly when the step is counted and displayed,
and nothing when any lookup misses. -/
def resolvedStepStatus (collector : EventDataCollector)
    (ev : TestStepFinishedEv) : Option TestStepResultStatus :=
  match collector ev.testCaseStartedId with
  | none => none
  | some testCase =>
    match findTestStep testCase ev.testStepId with
    | none => none
    | some testStep =>
      match testStep.pickleStepId with
      | none => none
      | some pid =>
        if pid = "" then none
        else
          match testCase.pickle.steps.find? (fun s => s.id == pid) with
          | none => none
          | some gherkinStep =>
            match gherkinStep.text with
            | none => none
            | some text =>
              if text = "" then none
              else some ev.testStepResult.status

/-- The statuses of the steps a trace actually counts (those whose
`StepFinished` resolution succeeds), in trace order. -/
def countedStatuses (collector : EventDataCollector) (trace : List Envelope) :
    List TestStepResultStatus :=
  trace.filterMap fun env =>
    match env with
    | Envelope.testStepFinished ev => resolvedStepStatus collector ev
    | _ => none

/-- Whether a status is one of the three named buckets. -/
def isNamedStatus (s : TestStepResultStatus) : Bool :=
  s == TestStepResultStatus.passed || s == TestStepResultStatus.failed ||
    s == TestStepResultStatus.skipped

/-! ## Ghost functions used to state the summarizer invariants -/

/-- Number of countable (type `"scenario"`) elements of a feature. -/
def scenCount (es : List CucumberScenarioElem) : Nat :=
  es.countP (fun e => e.type == "scenario")

/-- Number of countable elements whose derived aggregate status is `st`. -/
def statusCount (st : ScenStatus) (es : List CucumberScenarioElem) : Nat :=
  es.countP (fun e => e.type == "scenario" && determineScenarioStatus e.steps == st)

/-- Total number of steps inside the countable elements. -/
def stepsTotal (es : List CucumberScenarioElem) : Nat :=
  ((es.filter (fun e => e.type == "scenario")).map (fun e => e.steps.length)).sum

/-- Number of steps with status `s` inside the countable elements. -/
def stepStatusCount (s : String) (es : List CucumberScenarioElem) : Nat :=
  ((es.filter (fun e => e.type == "scenario")).map
    (fun e => e.steps.countP (fun step => step.result.status == s))).sum

/-- Total duration (missing durations as zero) of the steps inside the
countable elements. -/
def durTotal (es : List CucumberScenarioElem) : Nat :=
  ((es.filter (fun e => e.type == "scenario")).map
    (fun e => (e.steps.map (fun step => step.result.duration.getD 0)).sum)).sum

/-! ## Concrete sample inputs used by the witnesses and test-vector claims -/

/-- Builds a step with the given status and optional duration. -/
def mkStep (status : String) (dur : Option Nat) : CucumberStep :=
  { result := { status := status, duration := dur, error_message := none } }

/-- Builds a countable scenario element from its steps. -/
def mkScn (name : String) (steps : List CucumberStep) : CucumberScenarioElem :=
  { name := name, type := "scenario", steps := steps, tags := none }

/-- A report document with one feature holding three scenarios: two passed
and one failed. -/
def sampleThree : List CucumberFeature :=
  [{ name := "login",
     elements :=
       [mkScn "a" [mkStep "passed" (some 5)],
        mkScn "b" [mkStep "passed" none],
        mkScn "c" [mkStep "failed" (some 7)]] }]

/-- A feature none of whose elements are countable (`type` is `"background"`). -/
def backgroundOnlyFeature : CucumberFeature :=
  { name := "setup",
    elements :=
      [{ name := "bg", type := "background",
         steps := [mkStep "passed" (some 3)], tags := none }] }

/-- A report document with one feature holding 80 scenarios of which 23 pass:
the input where the program and the exact one-decimal percentage disagree. -/
def cxDoc : List CucumberFeature :=
  [{ name := "bulk",
     elements :=
       List.replicate 23 (mkScn "p" [mkStep "passed" none]) ++
         List.replicate 57 (mkScn "f" [mkStep "failed" none]) }]

/-- A collector that resolves no identifier at all. -/
def emptyCollector : EventDataCollector := fun _ => none

/-- A one-scenario, one-step world for the aggregator witnesses: the case
attempt resolves under the identifier `"tcs1"`, its single compiled step
`"ts1"` maps to the pickle step `"ps1"` with display text `"step one"`, and
the worst step result is passed. -/
def sampleAttempt : TestCaseAttempt :=
  { pickle := { name := "scn one", steps := [{ id := "ps1", text := some "step one" }] },
    testCase := some { testSteps := some [{ id := "ts1", pickleStepId := some "ps1" }] },
    worstTestStepResult := { status := TestStepResultStatus.passed } }

/-- A collector resolving exactly the identifier `"tcs1"` to `sampleAttempt`. -/
def sampleCollector : EventDataCollector :=
  fun id => if id = "tcs1" then some sampleAttempt else none

/-- A concrete `StepFinished` event that resolves under `sampleCollector`. -/
def sampleStepFinished : TestStepFinishedEv :=
  { testCaseStartedId := "tcs1", testStepId := "ts1",
    testStepResult := { status := TestStepResultStatus.passed } }

/-! ## Helper lemmas: summarizer step accounting -/

theorem processStep_eq (step : CucumberStep) (r : TestResults) :
    processStep step r =
      { r with
        totalSteps := r.totalSteps + 1
        duration := r.duration + step.result.duration.getD 0
        passedSteps := r.passedSteps + (if step.result.status = "passed" then 1 else 0)
        failedSteps := r.failedSteps + (if step.result.status = "failed" then 1 else 0)
        skippedSteps := r.skippedSteps + (if step.result.status = "skipped" then 1 else 0) } := by
  cases r
  simp only [processStep]
  split_ifs with h1 h2 h3 <;> simp_all

theorem updateScenarioCounts_eq (d : ScenStatus) (fs : FeatureSummary) (r : TestResults) :
    updateScenarioCounts d fs r =
      ({ fs with
          passed := fs.passed + (if d = ScenStatus.passed then 1 else 0)
          failed := fs.failed + (if d = ScenStatus.failed then 1 else 0)
          skipped := fs.skipped + (if d = ScenStatus.skipped then 1 else 0) },
       { r with
          passedScenarios :=
            r.passedScenarios + (if d = ScenStatus.passed then 1 else 0)
          failedScenarios :=
            r.failedScenarios + (if d = ScenStatus.failed then 1 else 0)
          skippedScenarios :=
            r.skippedScenarios + (if d = ScenStatus.skipped then 1 else 0) }) := by
  cases d <;> cases fs <;> cases r <;> simp [updateScenarioCounts]

theorem foldSteps_eq (steps : List CucumberStep) (r : TestResults) :
    steps.foldl (fun acc step => processStep step acc) r =
      { r with
        totalSteps := r.totalSteps + steps.length
        duration := r.duration + (steps.map (fun s => s.result.duration.getD 0)).sum
        passedSteps :=
          r.passedSteps + steps.countP (fun s => s.result.status == "passed")
        failedSteps :=
          r.failedSteps + steps.countP (fun s => s.result.status == "failed")
        skippedSteps :=
          r.skippedSteps + steps.countP (fun s => s.result.status == "skipped") } := by
  induction steps generalizing r with
  | nil => simp
  | cons s ss ih =>
    rw [List.foldl_cons, ih, processStep_eq]
    cases r
    simp [List.countP_cons]
    omega

/-! ## Helper lemmas: ghost counters, cons equations -/

theorem scenCount_cons (e : CucumberScenarioElem) (es : List CucumberScenarioElem) :
    scenCount (e :: es) = scenCount es + (if e.type = "scenario" then 1 else 0) := by
  simp [scenCount, List.countP_cons]

theorem statusCount_cons (d : ScenStatus) (e : CucumberScenarioElem)
    (es : List CucumberScenarioElem) :
    statusCount d (e :: es) = statusCount d es +
      (if e.type = "scenario" ∧ determineScenarioStatus e.steps = d then 1 else 0) := by
  simp [statusCount, List.countP_cons]

theorem stepsTotal_cons (e : CucumberScenarioElem) (es : List CucumberScenarioElem) :
    stepsTotal (e :: es) = (if e.type = "scenario" then e.steps.length else 0) +
      stepsTotal es := by
  by_cases ht : e.type = "scenario" <;> simp [stepsTotal, List.filter_cons, ht]

theorem stepStatusCount_cons (s : String) (e : CucumberScenarioElem)
    (es : List CucumberScenarioElem) :
    stepStatusCount s (e :: es) =
      (if e.type = "scenario" then
        e.steps.countP (fun step => step.result.status == s) else 0) +
      stepStatusCount s es := by
  by_cases ht : e.type = "scenario" <;> simp [stepStatusCount, List.filter_cons, ht]

theorem durTotal_cons (e : CucumberScenarioElem) (es : List CucumberScenarioElem) :
    durTotal (e :: es) =
      (if e.type = "scenario" then
        (e.steps.map (fun step => step.result.duration.getD 0)).sum else 0) +
      durTotal es := by
  by_cases ht : e.type = "scenario" <;> simp [durTotal, List.filter_cons, ht]

theorem statusCount_le_scenCount (d : ScenStatus) (es : List CucumberScenarioElem) :
    statusCount d es ≤ scenCount es := by
  induction es with
  | nil => simp [statusCount, scenCount]
  | cons e es ih =>
    rw [statusCount_cons, scenCount_cons]
    by_cases ht : e.type = "scenario"
    · by_cases hd : determineScenarioStatus e.steps = d <;> simp [ht, hd] <;> omega
    · simpa [ht] using ih

theorem scenCount_split (es : List CucumberScenarioElem) :
    scenCount es = statusCount ScenStatus.passed es + statusCount ScenStatus.failed es +
      statusCount ScenStatus.skipped es := by
  induction es with
  | nil => simp [statusCount, scenCount]
  | cons e es ih =>
    rw [scenCount_cons, statusCount_cons, statusCount_cons, statusCount_cons, ih]
    by_cases ht : e.type = "scenario"
    · cases hd : determineScenarioStatus e.steps <;> simp [ht, hd] <;> omega
    · simp [ht]

/-! ## Helper lemmas: summarizer element and feature folds -/

theorem processElement_pos (acc : FeatureSummary × TestResults)
    (e : CucumberScenarioElem) (ht : e.type = "scenario") :
    processElement acc e =
      ({ acc.1 with
          scenarios := acc.1.scenarios + 1
          passed := acc.1.passed +
            (if determineScenarioStatus e.steps = ScenStatus.passed then 1 else 0)
          failed := acc.1.failed +
            (if determineScenarioStatus e.steps = ScenStatus.failed then 1 else 0)
          skipped := acc.1.skipped +
            (if determineScenarioStatus e.steps = ScenStatus.skipped then 1 else 0) },
       { acc.2 with
          totalScenarios := acc.2.totalScenarios + 1
          passedScenarios := acc.2.passedScenarios +
            (if determineScenarioStatus e.steps = ScenStatus.passed then 1 else 0)
          failedScenarios := acc.2.failedScenarios +
            (if determineScenarioStatus e.steps = ScenStatus.failed then 1 else 0)
          skippedScenarios := acc.2.skippedScenarios +
            (if determineScenarioStatus e.steps = ScenStatus.skipped then 1 else 0)
          totalSteps := acc.2.totalSteps + e.steps.length
          passedSteps := acc.2.passedSteps +
            e.steps.countP (fun s => s.result.status == "passed")
          failedSteps := acc.2.failedSteps +
            e.steps.countP (fun s => s.result.status == "failed")
          skippedSteps := acc.2.skippedSteps +
            e.steps.countP (fun s => s.result.status == "skipped")
          duration := acc.2.duration +
            (e.steps.map (fun s => s.result.duration.getD 0)).sum }) := by
  obtain ⟨fs, r⟩ := acc
  simp only [processElement]
  rw [if_neg (by simp [ht])]
  simp only [foldSteps_eq, updateScenarioCounts_eq]

theorem processElement_neg (acc : FeatureSummary × TestResults)
    (e : CucumberScenarioElem) (ht : ¬ e.type = "scenario") :
    processElement acc e = acc := by
  obtain ⟨fs, r⟩ := acc
  simp [processElement, ht]

theorem foldElements_eq (es : List CucumberScenarioElem) (fs : FeatureSummary)
    (r : TestResults) :
    es.foldl processElement (fs, r) =
      ({ fs with
          scenarios := fs.scenarios + scenCount es
          passed := fs.passed + statusCount ScenStatus.passed es
          failed := fs.failed + statusCount ScenStatus.failed es
          skipped := fs.skipped + statusCount ScenStatus.skipped es },
       { r with
          totalScenarios := r.totalScenarios + scenCount es
          passedScenarios := r.passedScenarios + statusCount ScenStatus.passed es
          failedScenarios := r.failedScenarios + statusCount ScenStatus.failed es
          skippedScenarios := r.skippedScenarios + statusCount ScenStatus.skipped es
          totalSteps := r.totalSteps + stepsTotal es
          passedSteps := r.passedSteps + stepStatusCount "passed" es
          failedSteps := r.failedSteps + stepStatusCount "failed" es
          skippedSteps := r.skippedSteps + stepStatusCount "skipped" es
          duration := r.duration + durTotal es }) := by
  induction es generalizing fs r with
  | nil =>
    simp [scenCount, statusCount, stepsTotal, stepStatusCount, durTotal]
  | cons e es ih =>
    rw [List.foldl_cons]
    by_cases ht : e.type = "scenario"
    · rw [processElement_pos _ _ ht, ih]
      cases fs
      cases r
      simp [scenCount_cons, statusCount_cons, stepsTotal_cons, stepStatusCount_cons,
        durTotal_cons, ht]
      refine ⟨⟨?_, ?_, ?_, ?_⟩, ?_, ?_, ?_, ?_, ?_, ?_, ?_, ?_, ?_⟩ <;> omega
    · rw [processElement_neg _ _ ht, ih]
      simp [scenCount_cons, statusCount_cons, stepsTotal_cons, stepStatusCount_cons,
        durTotal_cons, ht]

theorem processFeature_eq (r : TestResults) (f : CucumberFeature) :
    processFeature r f =
      { r with
        totalScenarios := r.totalScenarios + scenCount f.elements
        passedScenarios := r.passedScenarios + statusCount ScenStatus.passed f.elements
        failedScenarios := r.failedScenarios + statusCount ScenStatus.failed f.elements
        skippedScenarios := r.skippedScenarios + statusCount ScenStatus.skipped f.elements
        totalSteps := r.totalSteps + stepsTotal f.elements
        passedSteps := r.passedSteps + stepStatusCount "passed" f.elements
        failedSteps := r.failedSteps + stepStatusCount "failed" f.elements
        skippedSteps := r.skippedSteps + stepStatusCount "skipped" f.elements
        duration := r.duration + durTotal f.elements
        features := r.features ++
          (if 0 < scenCount f.elements then
            [{ name := f.name
               scenarios := scenCount f.elements
               passed := statusCount ScenStatus.passed f.elements
               failed := statusCount ScenStatus.failed f.elements
               skipped := statusCount ScenStatus.skipped f.elements }]
          else []) } := by
  simp only [processFeature, foldElements_eq]
  by_cases h : 0 < scenCount f.elements <;> simp [h]

theorem processFeature_id (r : TestResults) (f : CucumberFeature)
    (h : ∀ e ∈ f.elements, e.type ≠ "scenario") : processFeature r f = r := by
  have hc : scenCount f.elements = 0 := by
    simp only [scenCount, List.countP_eq_zero]
    intro e he
    simpa using h e he
  have hp : ∀ d, statusCount d f.elements = 0 := fun d =>
    Nat.le_zero.mp (hc ▸ statusCount_le_scenCount d f.elements)
  have hf : f.elements.filter (fun e => e.type == "scenario") = [] := by
    rw [List.filter_eq_nil_iff]
    intro e he
    simpa using h e he
  rw [processFeature_eq]
  simp [hc, hp, stepsTotal, stepStatusCount, durTotal, hf]

theorem counts_filter (es : List CucumberScenarioElem) :
    scenCount (es.filter (fun e => e.type == "scenario")) = scenCount es ∧
    (∀ d, statusCount d (es.filter (fun e => e.type == "scenario")) = statusCount d es) ∧
    stepsTotal (es.filter (fun e => e.type == "scenario")) = stepsTotal es ∧
    (∀ s, stepStatusCount s (es.filter (fun e => e.type == "scenario")) =
      stepStatusCount s es) ∧
    durTotal (es.filter (fun e => e.type == "scenario")) = durTotal es := by
  induction es with
  | nil => simp
  | cons e es ih =>
    obtain ⟨i1, i2, i3, i4, i5⟩ := ih
    by_cases ht : e.type = "scenario"
    · rw [List.filter_cons_of_pos (by simp [ht])]
      refine ⟨?_, fun d => ?_, ?_, fun s => ?_, ?_⟩ <;>
        simp [scenCount_cons, statusCount_cons, stepsTotal_cons, stepStatusCount_cons,
          durTotal_cons, ht, i1, i2, i3, i4, i5]
    · rw [List.filter_cons_of_neg (by simp [ht])]
      refine ⟨?_, fun d => ?_, ?_, fun s => ?_, ?_⟩ <;>
        simp [scenCount_cons, statusCount_cons, stepsTotal_cons, stepStatusCount_cons,
          durTotal_cons, ht, i1, i2, i3, i4, i5]

theorem processFeature_filter_elements (r : TestResults) (f : CucumberFeature) :
    processFeature r
        { f with elements := f.elements.filter (fun e => e.type == "scenario") } =
      processFeature r f := by
  obtain ⟨i1, i2, i3, i4, i5⟩ := counts_filter f.elements
  rw [processFeature_eq, processFeature_eq]
  simp [i1, i2, i3, i4, i5]

theorem foldFeatures_names (features : List CucumberFeature) (r : TestResults) :
    ((features.foldl processFeature r).features).map (fun fs => fs.name) =
      r.features.map (fun fs => fs.name) ++
        (features.filter (fun f => f.elements.any (fun e => e.type == "scenario"))).map
          (fun f => f.name) := by
  induction features generalizing r with
  | nil => simp
  | cons f fs ih =>
    rw [List.foldl_cons, ih, processFeature_eq]
    by_cases h : 0 < scenCount f.elements
    · have ha : (f.elements.any (fun e => e.type == "scenario")) = true := by
        rw [List.any_eq_true]
        simpa [scenCount, List.countP_pos_iff] using h
      simp [List.filter_cons, ha, h]
    · have ha : (f.elements.any (fun e => e.type == "scenario")) = false := by
        rw [List.any_eq_false]
        intro e he
        by_contra hb
        exact h (by simpa [scenCount, List.countP_pos_iff] using ⟨e, he, by simpa using hb⟩)
      simp [List.filter_cons, ha, h]

theorem foldFeatures_sums (features : List CucumberFeature) (r : TestResults) :
    (((features.foldl processFeature r).features).map (fun fs => fs.scenarios)).sum +
        r.totalScenarios =
      (r.features.map (fun fs => fs.scenarios)).sum +
        (features.foldl processFeature r).totalScenarios ∧
    (((features.foldl processFeature r).features).map (fun fs => fs.passed)).sum +
        r.passedScenarios =
      (r.features.map (fun fs => fs.passed)).sum +
        (features.foldl processFeature r).passedScenarios ∧
    (((features.foldl processFeature r).features).map (fun fs => fs.failed)).sum +
        r.failedScenarios =
      (r.features.map (fun fs => fs.failed)).sum +
        (features.foldl processFeature r).failedScenarios ∧
    (((features.foldl processFeature r).features).map (fun fs => fs.skipped)).sum +
        r.skippedScenarios =
      (r.features.map (fun fs => fs.skipped)).sum +
        (features.foldl processFeature r).skippedScenarios := by
  induction features generalizing r with
  | nil => simp
  | cons f fs ih =>
    rw [List.foldl_cons]
    have h4 := ih (processFeature r f)
    rw [processFeature_eq] at h4 ⊢
    by_cases h : 0 < scenCount f.elements
    · simp [h] at h4 ⊢
      obtain ⟨i1, i2, i3, i4⟩ := h4
      refine ⟨?_, ?_, ?_, ?_⟩ <;> omega
    · have hc : scenCount f.elements = 0 := by omega
      have hp := statusCount_le_scenCount ScenStatus.passed f.elements
      have hf := statusCount_le_scenCount ScenStatus.failed f.elements
      have hk := statusCount_le_scenCount ScenStatus.skipped f.elements
      rw [hc] at hp hf hk
      simp [h, hc, Nat.le_zero.mp hp, Nat.le_zero.mp hf, Nat.le_zero.mp hk] at h4 ⊢
      exact h4

theorem foldFeatures_wf (features : List CucumberFeature) (r : TestResults)
    (h : ∀ fs ∈ r.features, fs.scenarios = fs.passed + fs.failed + fs.skipped) :
    ∀ fs ∈ (features.foldl processFeature r).features,
      fs.scenarios = fs.passed + fs.failed + fs.skipped := by
  induction features generalizing r with
  | nil => exact h
  | cons f fs ih =>
    rw [List.foldl_cons]
    apply ih
    intro g hg
    rw [processFeature_eq] at hg
    simp only [List.mem_append] at hg
    rcases hg with hg | hg
    · exact h g hg
    · by_cases h0 : 0 < scenCount f.elements
      · simp [h0] at hg
        subst hg
        simpa using scenCount_split f.elements
      · simp [h0] at hg


/-! ## Helper lemmas: aggregator counters -/

theorem updateStepCounts_eq (status : TestStepResultStatus) (st : AggState) :
    updateStepCounts status st =
      { st with
        totalSteps := st.totalSteps + 1
        passedCount := st.passedCount +
          (if status = TestStepResultStatus.passed then 1 else 0)
        failedCount := st.failedCount +
          (if status = TestStepResultStatus.failed then 1 else 0)
        skippedCount := st.skippedCount +
          (if status = TestStepResultStatus.skipped then 1 else 0) } := by
  cases st
  simp only [updateStepCounts]
  split_ifs with h1 h2 h3 <;> simp_all

theorem trackScenarioResult_eq (c : EventDataCollector) (ev : TestCaseFinishedEv)
    (st : AggState) :
    trackScenarioResult c ev st =
      match c ev.testCaseStartedId with
      | none => st
      | some tc =>
        { st with
          totalScenarios := st.totalScenarios + 1
          scenariosPassed := st.scenariosPassed +
            (if tc.worstTestStepResult.status = TestStepResultStatus.passed then 1 else 0)
          scenariosFailed := st.scenariosFailed +
            (if tc.worstTestStepResult.status = TestStepResultStatus.failed then 1 else 0)
          scenariosSkipped := st.scenariosSkipped +
            (if tc.worstTestStepResult.status = TestStepResultStatus.skipped then 1 else 0) } := by
  unfold trackScenarioResult
  cases hc : c ev.testCaseStartedId with
  | none => rfl
  | some tc =>
    by_cases h1 : tc.worstTestStepResult.status = TestStepResultStatus.passed
    · simp [h1]
    · by_cases h2 : tc.worstTestStepResult.status = TestStepResultStatus.failed
      · simp [h1, h2]
      · by_cases h3 : tc.worstTestStepResult.status = TestStepResultStatus.skipped
        · simp [h1, h2, h3]
        · simp [h1, h2, h3]

theorem logTestCaseStarted_counts (c : EventDataCollector) (ev : TestCaseStartedEv)
    (st : AggState) :
    (logTestCaseStarted c ev st).totalSteps = st.totalSteps ∧
    (logTestCaseStarted c ev st).passedCount = st.passedCount ∧
    (logTestCaseStarted c ev st).failedCount = st.failedCount ∧
    (logTestCaseStarted c ev st).skippedCount = st.skippedCount := by
  unfold logTestCaseStarted
  cases hc : c ev.id <;> simp [hc, emitLog]

theorem logTestStepStarted_counts (c : EventDataCollector) (ev : TestStepStartedEv)
    (st : AggState) :
    (logTestStepStarted c ev st).totalSteps = st.totalSteps ∧
    (logTestStepStarted c ev st).passedCount = st.passedCount ∧
    (logTestStepStarted c ev st).failedCount = st.failedCount ∧
    (logTestStepStarted c ev st).skippedCount = st.skippedCount := by
  unfold logTestStepStarted
  cases hc : c ev.testCaseStartedId with
  | none => simp [hc]
  | some tc =>
    cases hf : findTestStep tc ev.testStepId with
    | none => simp [hc, hf]
    | some ts =>
      cases hpid : ts.pickleStepId with
      | none => simp [hc, hf, hpid]
      | some pid =>
        by_cases hp : pid = ""
        · simp [hc, hf, hpid, hp]
        · cases hg : tc.pickle.steps.find? (fun s => s.id == pid) with
          | none => simp [hc, hf, hpid, hp, hg]
          | some g =>
            cases htx : g.text with
            | none => simp [hc, hf, hpid, hp, hg, htx]
            | some t =>
              by_cases hte : t = ""
              · simp [hc, hf, hpid, hp, hg, htx, hte]
              · simp [hc, hf, hpid, hp, hg, htx, hte, emitLog]

theorem logTestRunFinished_counts (now : Nat) (st : AggState) :
    (logTestRunFinished now st).totalSteps = st.totalSteps ∧
    (logTestRunFinished now st).passedCount = st.passedCount ∧
    (logTestRunFinished now st).failedCount = st.failedCount ∧
    (logTestRunFinished now st).skippedCount = st.skippedCount := by
  simp only [logTestRunFinished, emitLog]
  split_ifs <;> simp

theorem logTestStepFinished_counts (c : EventDataCollector) (ev : TestStepFinishedEv)
    (st : AggState) :
    (logTestStepFinished c ev st).totalSteps =
      st.totalSteps + (if (resolvedStepStatus c ev).isSome then 1 else 0) ∧
    (logTestStepFinished c ev st).passedCount =
      st.passedCount +
        (if resolvedStepStatus c ev = some TestStepResultStatus.passed then 1 else 0) ∧
    (logTestStepFinished c ev st).failedCount =
      st.failedCount +
        (if resolvedStepStatus c ev = some TestStepResultStatus.failed then 1 else 0) ∧
    (logTestStepFinished c ev st).skippedCount =
      st.skippedCount +
        (if resolvedStepStatus c ev = some TestStepResultStatus.skipped then 1 else 0) := by
  unfold logTestStepFinished resolvedStepStatus
  cases hc : c ev.testCaseStartedId with
  | none => simp [hc]
  | some tc =>
    cases hf : findTestStep tc ev.testStepId with
    | none => simp [hc, hf]
    | some ts =>
      cases hpid : ts.pickleStepId with
      | none => simp [hc, hf, hpid]
      | some pid =>
        by_cases hp : pid = ""
        · simp [hc, hf, hpid, hp]
        · cases hg : tc.pickle.steps.find? (fun s => s.id == pid) with
          | none => simp [hc, hf, hpid, hp, hg]
          | some g =>
            cases htx : g.text with
            | none => simp [hc, hf, hpid, hp, hg, htx]
            | some t =>
              by_cases hte : t = ""
              · simp [hc, hf, hpid, hp, hg, htx, hte]
              · simp [hc, hf, hpid, hp, hg, htx, hte, emitLog, updateStepCounts_eq]

theorem handleEnvelope_stepCounts (c : EventDataCollector) (st : AggState)
    (env : Envelope) :
    (handleEnvelope c st env).totalSteps = st.totalSteps +
        (match env with
         | Envelope.testStepFinished ev =>
            if (resolvedStepStatus c ev).isSome then 1 else 0
         | _ => 0) ∧
    (handleEnvelope c st env).passedCount = st.passedCount +
        (match env with
         | Envelope.testStepFinished ev =>
            if resolvedStepStatus c ev = some TestStepResultStatus.passed then 1 else 0
         | _ => 0) ∧
    (handleEnvelope c st env).failedCount = st.failedCount +
        (match env with
         | Envelope.testStepFinished ev =>
            if resolvedStepStatus c ev = some TestStepResultStatus.failed then 1 else 0
         | _ => 0) ∧
    (handleEnvelope c st env).skippedCount = st.skippedCount +
        (match env with
         | Envelope.testStepFinished ev =>
            if resolvedStepStatus c ev = some TestStepResultStatus.skipped then 1 else 0
         | _ => 0) := by
  cases env with
  | testRunStarted ts => simp [handleEnvelope]
  | testCaseStarted ev =>
    have h := logTestCaseStarted_counts c ev st
    simp [handleEnvelope, h.1, h.2.1, h.2.2.1, h.2.2.2]
  | testCaseFinished ev =>
    rcases hc : c ev.testCaseStartedId with _ | tc <;>
      simp [handleEnvelope, trackScenarioResult_eq, hc]
  | testStepStarted ev =>
    have h := logTestStepStarted_counts c ev st
    simp [handleEnvelope, h.1, h.2.1, h.2.2.1, h.2.2.2]
  | testStepFinished ev =>
    have h := logTestStepFinished_counts c ev st
    simp [handleEnvelope, h.1, h.2.1, h.2.2.1, h.2.2.2]
  | testRunFinished ts =>
    have h := logTestRunFinished_counts ts st
    simp [handleEnvelope, h.1, h.2.1, h.2.2.1, h.2.2.2]

theorem foldAgg_counts (c : EventDataCollector) (trace : List Envelope)
    (st : AggState) :
    (trace.foldl (handleEnvelope c) st).totalSteps =
      st.totalSteps + (countedStatuses c trace).length ∧
    (trace.foldl (handleEnvelope c) st).passedCount =
      st.passedCount +
        (countedStatuses c trace).countP (fun s => s == TestStepResultStatus.passed) ∧
    (trace.foldl (handleEnvelope c) st).failedCount =
      st.failedCount +
        (countedStatuses c trace).countP (fun s => s == TestStepResultStatus.failed) ∧
    (trace.foldl (handleEnvelope c) st).skippedCount =
      st.skippedCount +
        (countedStatuses c trace).countP (fun s => s == TestStepResultStatus.skipped) := by
  induction trace generalizing st with
  | nil => simp [countedStatuses]
  | cons env tr ih =>
    rw [List.foldl_cons]
    obtain ⟨i1, i2, i3, i4⟩ := ih (handleEnvelope c st env)
    obtain ⟨h1, h2, h3, h4⟩ := handleEnvelope_stepCounts c st env
    cases env with
    | testStepFinished ev =>
      rcases hr : resolvedStepStatus c ev with _ | s
      · simp only [hr] at h1 h2 h3 h4
        refine ⟨?_, ?_, ?_, ?_⟩ <;>
          simp [countedStatuses, List.filterMap_cons, hr, i1, i2, i3, i4,
            h1, h2, h3, h4]
      · simp only [hr] at h1 h2 h3 h4
        refine ⟨?_, ?_, ?_, ?_⟩ <;>
          simp [countedStatuses, List.filterMap_cons, hr, List.countP_cons,
            i1, i2, i3, i4, h1, h2, h3, h4] <;>
          omega
    | testRunStarted ts =>
      refine ⟨?_, ?_, ?_, ?_⟩ <;>
        simp [countedStatuses, List.filterMap_cons, i1, i2, i3, i4, h1, h2, h3, h4]
    | testCaseStarted ev =>
      refine ⟨?_, ?_, ?_, ?_⟩ <;>
        simp [countedStatuses, List.filterMap_cons, i1, i2, i3, i4, h1, h2, h3, h4]
    | testCaseFinished ev =>
      refine ⟨?_, ?_, ?_, ?_⟩ <;>
        simp [countedStatuses, List.filterMap_cons, i1, i2, i3, i4, h1, h2, h3, h4]
    | testStepStarted ev =>
      refine ⟨?_, ?_, ?_, ?_⟩ <;>
        simp [countedStatuses, List.filterMap_cons, i1, i2, i3, i4, h1, h2, h3, h4]
    | testRunFinished ts =>
      refine ⟨?_, ?_, ?_, ?_⟩ <;>
        simp [countedStatuses, List.filterMap_cons, i1, i2, i3, i4, h1, h2, h3, h4]

theorem length_split_statuses (l : List TestStepResultStatus) :
    l.length = l.countP (fun s => s == TestStepResultStatus.passed) +
      l.countP (fun s => s == TestStepResultStatus.failed) +
      l.countP (fun s => s == TestStepResultStatus.skipped) +
      l.countP (fun s => !(isNamedStatus s)) := by
  induction l with
  | nil => simp
  | cons s l ih =>
    simp only [List.length_cons, List.countP_cons]
    rw [ih]
    rcases s <;> simp [isNamedStatus] <;> omega

/-! ## Claim theorems -/

/-- C1: the derived aggregate scenario status is `failed` if any step has
status `"failed"`, otherwise `skipped` if any step has status `"skipped"`,
otherwise `passed`; in particular a scenario with zero steps, or whose steps
all carry statuses outside the three named ones, is classified `passed`. -/
theorem determineScenarioStatus_worst_first (steps : List CucumberStep) :
    (determineScenarioStatus steps =
      if ∃ s ∈ steps, s.result.status = "failed" then ScenStatus.failed
      else if ∃ s ∈ steps, s.result.status = "skipped" then ScenStatus.skipped
      else ScenStatus.passed) ∧
    determineScenarioStatus [] = ScenStatus.passed := by
  constructor
  · by_cases hF : ∃ s ∈ steps, s.result.status = "failed" <;>
      by_cases hS : ∃ s ∈ steps, s.result.status = "skipped" <;>
      simp [determineScenarioStatus, hF, hS, List.any_eq_true]
  · rfl

/-- C2: `processStep` increments the total step count, adds the duration of
the step treating a missing duration as zero, and increments exactly the
passed/failed/skipped step counter matching the status of the step; any other
status increments none of the three named counters.  The function is total,
so no status value makes it raise. -/
theorem processStep_step_accounting (step : CucumberStep) (results : TestResults) :
    processStep step results =
      { results with
        totalSteps := results.totalSteps + 1
        duration := results.duration + step.result.duration.getD 0
        passedSteps := results.passedSteps +
          (if step.result.status = "passed" then 1 else 0)
        failedSteps := results.failedSteps +
          (if step.result.status = "failed" then 1 else 0)
        skippedSteps := results.skippedSteps +
          (if step.result.status = "skipped" then 1 else 0) } :=
  processStep_eq step results

/-- C9: when the backing result document cannot be located, `parseTestResults`
produces the thrown error (an `Except.error`, never an `Except.ok` summary),
so the failure propagates to the caller and no partial summary exists. -/
theorem parseTestResults_missing_document :
    parseTestResults none =
      Except.error "Report file not found: test-results/cucumber-report.json" :=
  rfl

/-- C5: on a `CaseFinished` event whose case identifier resolves, the
aggregator increments the total scenario counter and exactly the scenario
bucket matching the worst step status of the case (passed/failed/skipped; any
other worst status increments no named bucket); when the identifier does not
resolve, the state — hence every counter — is unchanged, and the function is
total, so no error is raised. -/
theorem trackScenarioResult_case_finished (c : EventDataCollector)
    (ev : TestCaseFinishedEv) (st : AggState) :
    trackScenarioResult c ev st =
      match c ev.testCaseStartedId with
      | none => st
      | some tc =>
        { st with
          totalScenarios := st.totalScenarios + 1
          scenariosPassed := st.scenariosPassed +
            (if tc.worstTestStepResult.status = TestStepResultStatus.passed then 1 else 0)
          scenariosFailed := st.scenariosFailed +
            (if tc.worstTestStepResult.status = TestStepResultStatus.failed then 1 else 0)
          scenariosSkipped := st.scenariosSkipped +
            (if tc.worstTestStepResult.status = TestStepResultStatus.skipped
             then 1 else 0) } :=
  trackScenarioResult_eq c ev st

/-- C4: after any event trace — hence, since the trace is universally
quantified, after every prefix of every trace, in particular after every
processed `StepFinished` — the total step counter of the aggregator equals
passed + failed + skipped plus the number of counted steps whose status lies
outside the three named buckets. -/
theorem aggregator_step_count_invariant (c : EventDataCollector)
    (trace : List Envelope) :
    (runAgg c trace).totalSteps =
      (runAgg c trace).passedCount + (runAgg c trace).failedCount +
        (runAgg c trace).skippedCount +
        (countedStatuses c trace).countP (fun s => !(isNamedStatus s)) := by
  obtain ⟨h1, h2, h3, h4⟩ := foldAgg_counts c trace initialAggState
  have e1 : initialAggState.totalSteps = 0 := rfl
  have e2 : initialAggState.passedCount = 0 := rfl
  have e3 : initialAggState.failedCount = 0 := rfl
  have e4 : initialAggState.skippedCount = 0 := rfl
  rw [e1] at h1
  rw [e2] at h2
  rw [e3] at h3
  rw [e4] at h4
  have hs := length_split_statuses (countedStatuses c trace)
  unfold runAgg
  omega

/-- C6: a `StepFinished` event whose case identifier, compiled step
identifier, pickle-step identifier, or step display text fails to resolve
leaves the aggregator state — every counter and the emitted output —
unchanged; counting and emission happen only on successful resolution, and
the function is total, so nothing is thrown. -/
theorem logTestStepFinished_resolution_miss (c : EventDataCollector)
    (ev : TestStepFinishedEv) (st : AggState)
    (h : resolvedStepStatus c ev = none) :
    logTestStepFinished c ev st = st := by
  unfold logTestStepFinished
  cases hc : c ev.testCaseStartedId with
  | none => simp [hc]
  | some tc =>
    cases hf : findTestStep tc ev.testStepId with
    | none => simp [hc, hf]
    | some ts =>
      cases hpid : ts.pickleStepId with
      | none => simp [hc, hf, hpid]
      | some pid =>
        by_cases hp : pid = ""
        · simp [hc, hf, hpid, hp]
        · cases hg : tc.pickle.steps.find? (fun s => s.id == pid) with
          | none => simp [hc, hf, hpid, hp, hg]
          | some g =>
            cases htx : g.text with
            | none => simp [hc, hf, hpid, hp, hg, htx]
            | some t =>
              by_cases hte : t = ""
              · simp [hc, hf, hpid, hp, hg, htx, hte]
              · exfalso
                have hr : resolvedStepStatus c ev = some ev.testStepResult.status := by
                  simp [resolvedStepStatus, hc, hf, hpid, hp, hg, htx, hte]
                rw [h] at hr
                exact Option.noConfusion hr

/-- Witness for C6: a collector that resolves nothing makes the concrete
`StepFinished` event a resolution miss, and the initial state is returned
unchanged. -/
theorem logTestStepFinished_resolution_miss_witness :
    logTestStepFinished emptyCollector sampleStepFinished initialAggState =
      initialAggState :=
  logTestStepFinished_resolution_miss emptyCollector sampleStepFinished
    initialAggState rfl

theorem foldFeatures_filter_elements (features : List CucumberFeature)
    (r : TestResults) :
    (features.map (fun f =>
      { f with elements := f.elements.filter (fun e => e.type == "scenario") })).foldl
        processFeature r =
      features.foldl processFeature r := by
  induction features generalizing r with
  | nil => rfl
  | cons f fs ih =>
    simp only [List.map_cons, List.foldl_cons]
    rw [processFeature_filter_elements, ih]

/-- C3: dropping every feature element whose `type` is not exactly
`"scenario"` changes nothing (such elements are excluded from all counting);
a feature none of whose elements are countable can be removed from the
document without changing the result at all (it is absent from the breakdown
and contributes 0 to every total); and the breakdown lists exactly the
features with at least one countable scenario, in input order. -/
theorem parseTestResults_feature_filtering :
    (∀ features : List CucumberFeature,
      computeResults (features.map (fun f =>
        { f with elements := f.elements.filter (fun e => e.type == "scenario") })) =
        computeResults features) ∧
    (∀ (pre post : List CucumberFeature) (f : CucumberFeature),
      (∀ e ∈ f.elements, e.type ≠ "scenario") →
      computeResults (pre ++ f :: post) = computeResults (pre ++ post)) ∧
    (∀ features : List CucumberFeature,
      ((computeResults features).features).map (fun fs => fs.name) =
        (features.filter (fun f =>
          f.elements.any (fun e => e.type == "scenario"))).map (fun f => f.name)) := by
  refine ⟨?_, ?_, ?_⟩
  · intro features
    exact foldFeatures_filter_elements features emptyResults
  · intro pre post f h
    unfold computeResults
    rw [List.foldl_append, List.foldl_append, List.foldl_cons,
      processFeature_id _ _ h]
  · intro features
    simpa [emptyResults] using foldFeatures_names features emptyResults

/-- Witness for C3: removing the background-only feature from a concrete
document leaves the result unchanged. -/
theorem parseTestResults_feature_filtering_witness :
    computeResults ([] ++ backgroundOnlyFeature :: []) = computeResults ([] ++ []) :=
  parseTestResults_feature_filtering.2.1 [] [] backgroundOnlyFeature (by decide)

/-- C10: the global scenario counters equal the sums of the corresponding
fields over the per-feature breakdown entries, and every breakdown entry
satisfies `scenarios = passed + failed + skipped`. -/
theorem summary_breakdown_invariant (features : List CucumberFeature) :
    ((computeResults features).features.map (fun fs => fs.scenarios)).sum =
      (computeResults features).totalScenarios ∧
    ((computeResults features).features.map (fun fs => fs.passed)).sum =
      (computeResults features).passedScenarios ∧
    ((computeResults features).features.map (fun fs => fs.failed)).sum =
      (computeResults features).failedScenarios ∧
    ((computeResults features).features.map (fun fs => fs.skipped)).sum =
      (computeResults features).skippedScenarios ∧
    ∀ fs ∈ (computeResults features).features,
      fs.scenarios = fs.passed + fs.failed + fs.skipped := by
  obtain ⟨h1, h2, h3, h4⟩ := foldFeatures_sums features emptyResults
  simp only [show emptyResults.totalScenarios = 0 from rfl,
    show emptyResults.passedScenarios = 0 from rfl,
    show emptyResults.failedScenarios = 0 from rfl,
    show emptyResults.skippedScenarios = 0 from rfl,
    show emptyResults.features = [] from rfl, List.map_nil, List.sum_nil] at h1 h2 h3 h4
  refine ⟨?_, ?_, ?_, ?_, ?_⟩
  · unfold computeResults
    omega
  · unfold computeResults
    omega
  · unfold computeResults
    omega
  · unfold computeResults
    omega
  · exact foldFeatures_wf features emptyResults (by simp [emptyResults])

/-- Witness for C10: on the sample document the single breakdown entry is
concrete, and the per-entry invariant is discharged at it. -/
theorem summary_breakdown_invariant_witness :
    (computeResults sampleThree).features = [⟨"login", 3, 2, 1, 0⟩] ∧
    (⟨"login", 3, 2, 1, 0⟩ : FeatureSummary).scenarios =
      (⟨"login", 3, 2, 1, 0⟩ : FeatureSummary).passed +
        (⟨"login", 3, 2, 1, 0⟩ : FeatureSummary).failed +
        (⟨"login", 3, 2, 1, 0⟩ : FeatureSummary).skipped := by
  refine ⟨by rfl, (summary_breakdown_invariant sampleThree).2.2.2.2
    ⟨"login", 3, 2, 1, 0⟩ ?_⟩
  have h : (computeResults sampleThree).features = [⟨"login", 3, 2, 1, 0⟩] := by rfl
  rw [h]
  exact List.mem_singleton.mpr rfl

/-! ## Helper lemmas: binary64 rounding -/

theorem roundHalfEven_le (x : ℚ) : (roundHalfEven x : ℚ) ≤ x + 1 / 2 := by
  have hf := Int.floor_le x
  simp only [roundHalfEven]
  split_ifs with h1 h2 h3 <;> push_cast <;> linarith

theorem roundHalfEven_ge (x : ℚ) : x - 1 / 2 ≤ (roundHalfEven x : ℚ) := by
  have hf := Int.lt_floor_add_one x
  simp only [roundHalfEven]
  split_ifs with h1 h2 h3 <;> push_cast <;> linarith

theorem roundHalfEven_nonneg (x : ℚ) (hx : 0 ≤ x) : 0 ≤ roundHalfEven x := by
  have h := roundHalfEven_ge x
  have h2 : (-1 : ℚ) < (roundHalfEven x : ℚ) := by linarith
  have h3 : (-1 : ℤ) < roundHalfEven x := by exact_mod_cast h2
  omega

theorem flPos_nonneg (q : ℚ) : 0 ≤ flPos q := by
  unfold flPos
  split_ifs with h
  · exact le_refl 0
  · push_neg at h
    refine mul_nonneg ?_ (le_of_lt (zpow_pos (by norm_num) _))
    exact_mod_cast roundHalfEven_nonneg _
      (mul_nonneg (le_of_lt h) (le_of_lt (zpow_pos (by norm_num) _)))

theorem ratExp_le (num den : ℕ) (hn : num ≠ 0) (hd : den ≠ 0) :
    (2 : ℚ) ^ ratExp num den ≤ (num : ℚ) / (den : ℚ) := by
  have hn0 : (0:ℚ) < (num:ℚ) := by exact_mod_cast Nat.pos_of_ne_zero hn
  have hd0 : (0:ℚ) < (den:ℚ) := by exact_mod_cast Nat.pos_of_ne_zero hd
  simp only [ratExp]
  split_ifs with h
  · exact h
  · have h1 : (2:ℚ) ^ (Nat.log2 num) ≤ (num:ℚ) := by exact_mod_cast Nat.log2_self_le hn
    have h2 : (den:ℚ) ≤ 2 ^ (Nat.log2 den + 1) := by
      exact_mod_cast le_of_lt (Nat.lt_log2_self (n := den))
    have key : (2:ℚ) ^ ((Nat.log2 num : ℤ) - (Nat.log2 den : ℤ) - 1) =
        (2:ℚ) ^ (Nat.log2 num) / (2:ℚ) ^ (Nat.log2 den + 1) := by
      rw [show (Nat.log2 num : ℤ) - (Nat.log2 den : ℤ) - 1
            = (Nat.log2 num : ℤ) - ((Nat.log2 den : ℤ) + 1) by ring,
        zpow_sub₀ (two_ne_zero)]
      norm_cast
    rw [key]
    have hp1 : (0:ℚ) < (2:ℚ) ^ (Nat.log2 den + 1) := by positivity
    calc (2:ℚ) ^ (Nat.log2 num) / (2:ℚ) ^ (Nat.log2 den + 1)
        ≤ (num:ℚ) / (2:ℚ) ^ (Nat.log2 den + 1) := by gcongr
      _ ≤ (num:ℚ) / (den:ℚ) := by gcongr

theorem ratExp_lt (num den : ℕ) (hn : num ≠ 0) (hd : den ≠ 0) :
    (num : ℚ) / (den : ℚ) < (2 : ℚ) ^ (ratExp num den + 1) := by
  have hn0 : (0:ℚ) < (num:ℚ) := by exact_mod_cast Nat.pos_of_ne_zero hn
  have hd0 : (0:ℚ) < (den:ℚ) := by exact_mod_cast Nat.pos_of_ne_zero hd
  simp only [ratExp]
  split_ifs with h
  · have h1 : (num:ℚ) < 2 ^ (Nat.log2 num + 1) := by
      exact_mod_cast Nat.lt_log2_self (n := num)
    have h2 : (2:ℚ) ^ (Nat.log2 den) ≤ (den:ℚ) := by exact_mod_cast Nat.log2_self_le hd
    have key : (2:ℚ) ^ ((Nat.log2 num : ℤ) - (Nat.log2 den : ℤ) + 1) =
        (2:ℚ) ^ (Nat.log2 num + 1) / (2:ℚ) ^ (Nat.log2 den) := by
      rw [show (Nat.log2 num : ℤ) - (Nat.log2 den : ℤ) + 1
            = ((Nat.log2 num : ℤ) + 1) - (Nat.log2 den : ℤ) by ring,
        zpow_sub₀ (two_ne_zero)]
      norm_cast
    rw [key]
    have hp2 : (0:ℚ) < (2:ℚ) ^ (Nat.log2 den) := by positivity
    calc (num:ℚ) / (den:ℚ) ≤ (num:ℚ) / (2:ℚ) ^ (Nat.log2 den) := by gcongr
      _ < (2:ℚ) ^ (Nat.log2 num + 1) / (2:ℚ) ^ (Nat.log2 den) := by gcongr
  · push_neg at h
    calc (num:ℚ) / (den:ℚ)
        < (2:ℚ) ^ ((Nat.log2 num : ℤ) - (Nat.log2 den : ℤ)) := h
      _ = (2:ℚ) ^ ((Nat.log2 num : ℤ) - (Nat.log2 den : ℤ) - 1 + 1) := by congr 1; ring

theorem ratExp_le_self (q : ℚ) (hq : 0 < q) :
    (2 : ℚ) ^ ratExp q.num.toNat q.den ≤ q := by
  have hn : q.num.toNat ≠ 0 := by
    have := Rat.num_pos.mpr hq
    omega
  have hd : q.den ≠ 0 := q.den_pos.ne'
  have heq : ((q.num.toNat : ℚ)) / (q.den : ℚ) = q := by
    have h0 : ((q.num.toNat : ℤ)) = q.num :=
      Int.toNat_of_nonneg (le_of_lt (Rat.num_pos.mpr hq))
    have h1 : ((q.num.toNat : ℚ)) = (q.num : ℚ) := by exact_mod_cast h0
    rw [h1, Rat.num_div_den]
  have h := ratExp_le q.num.toNat q.den hn hd
  rwa [heq] at h

theorem self_lt_ratExp_succ (q : ℚ) (hq : 0 < q) :
    q < (2 : ℚ) ^ (ratExp q.num.toNat q.den + 1) := by
  have hn : q.num.toNat ≠ 0 := by
    have := Rat.num_pos.mpr hq
    omega
  have hd : q.den ≠ 0 := q.den_pos.ne'
  have heq : ((q.num.toNat : ℚ)) / (q.den : ℚ) = q := by
    have h0 : ((q.num.toNat : ℤ)) = q.num :=
      Int.toNat_of_nonneg (le_of_lt (Rat.num_pos.mpr hq))
    have h1 : ((q.num.toNat : ℚ)) = (q.num : ℚ) := by exact_mod_cast h0
    rw [h1, Rat.num_div_den]
  have h := ratExp_lt q.num.toNat q.den hn hd
  rwa [heq] at h

theorem flPos_le_add (q : ℚ) (hq : 0 < q) :
    flPos q ≤ q + 2 ^ (max (ratExp q.num.toNat q.den) (-1022) - 53) := by
  simp only [flPos]
  rw [if_neg (not_le.mpr hq)]
  set E : ℤ := max (ratExp q.num.toNat q.den) (-1022) with hE
  have hb := roundHalfEven_le (q * 2 ^ ((52 : ℤ) - E))
  have hp : (0:ℚ) < 2 ^ (E - (52:ℤ)) := zpow_pos (by norm_num) _
  calc ((roundHalfEven (q * 2 ^ ((52:ℤ) - E)) : ℤ) : ℚ) * 2 ^ (E - (52:ℤ))
      ≤ (q * 2 ^ ((52:ℤ) - E) + 1/2) * 2 ^ (E - (52:ℤ)) :=
        mul_le_mul_of_nonneg_right hb (le_of_lt hp)
    _ = q + 2 ^ (E - 53) := by
        rw [add_mul, mul_assoc, ← zpow_add₀ (two_ne_zero : (2:ℚ) ≠ 0),
          show (52:ℤ) - E + (E - 52) = 0 by ring, zpow_zero,
          show (E : ℤ) - 53 = (E - 52) + (-1) by ring,
          zpow_add₀ (two_ne_zero : (2:ℚ) ≠ 0)]
        norm_num
        ring
    _ ≤ q + 2 ^ (E - 53) := le_refl _

theorem flPos_ge_sub (q : ℚ) (hq : 0 < q) :
    q - 2 ^ (max (ratExp q.num.toNat q.den) (-1022) - 53) ≤ flPos q := by
  simp only [flPos]
  rw [if_neg (not_le.mpr hq)]
  set E : ℤ := max (ratExp q.num.toNat q.den) (-1022) with hE
  have hb := roundHalfEven_ge (q * 2 ^ ((52 : ℤ) - E))
  have hp : (0:ℚ) < 2 ^ (E - (52:ℤ)) := zpow_pos (by norm_num) _
  calc q - 2 ^ (E - 53)
      = (q * 2 ^ ((52:ℤ) - E) - 1/2) * 2 ^ (E - (52:ℤ)) := by
        rw [sub_mul, mul_assoc, ← zpow_add₀ (two_ne_zero : (2:ℚ) ≠ 0),
          show (52:ℤ) - E + (E - 52) = 0 by ring, zpow_zero,
          show (E : ℤ) - 53 = (E - 52) + (-1) by ring,
          zpow_add₀ (two_ne_zero : (2:ℚ) ≠ 0)]
        norm_num
        ring
    _ ≤ ((roundHalfEven (q * 2 ^ ((52:ℤ) - E)) : ℤ) : ℚ) * 2 ^ (E - (52:ℤ)) :=
        mul_le_mul_of_nonneg_right hb (le_of_lt hp)

theorem flPos_seconds_lt (n : ℕ) (hn : n < 60 * 1000000000) :
    flPos ((n : ℚ) / 1000000000) < 60 := by
  rcases Nat.eq_zero_or_pos n with h0 | hpos
  · subst h0
    norm_num [flPos]
  · set q : ℚ := (n : ℚ) / 1000000000 with hqdef
    clear_value q
    have hq : 0 < q := by
      rw [hqdef]
      have hn0 : (0:ℚ) < (n:ℚ) := by exact_mod_cast hpos
      positivity
    have hqle : q ≤ 60 - 1 / 1000000000 := by
      rw [hqdef, div_le_iff₀ (by norm_num : (0:ℚ) < 1000000000)]
      have hcast : (n : ℚ) ≤ 59999999999 := by exact_mod_cast Nat.le_of_lt_succ hn
      linarith
    have h1 := ratExp_le_self q hq
    have hq64 : q < (2:ℚ) ^ (6:ℤ) := by
      calc q ≤ 60 - 1 / 1000000000 := hqle
        _ < (2:ℚ) ^ (6:ℤ) := by norm_num
    have he6 : ratExp q.num.toNat q.den < 6 :=
      (zpow_lt_zpow_iff_right₀ one_lt_two).mp (lt_of_le_of_lt h1 hq64)
    have hEle : max (ratExp q.num.toNat q.den) (-1022) - 53 ≤ -(48:ℤ) := by
      have : max (ratExp q.num.toNat q.den) (-1022) ≤ 5 := max_le (by omega) (by norm_num)
      omega
    calc flPos q ≤ q + 2 ^ (max (ratExp q.num.toNat q.den) (-1022) - 53) :=
          flPos_le_add q hq
      _ ≤ (60 - 1 / 1000000000) + 2 ^ (-(48:ℤ)) :=
          add_le_add hqle (zpow_le_zpow_right₀ one_le_two hEle)
      _ < 60 := by norm_num

theorem flPos_seconds_ge (n : ℕ) (hn : 60 * 1000000000 ≤ n) :
    (60 : ℚ) ≤ flPos ((n : ℚ) / 1000000000) := by
  set q : ℚ := (n : ℚ) / 1000000000 with hqdef
  clear_value q
  have hq : 0 < q := by
    rw [hqdef]
    have : (0:ℚ) < (n:ℚ) := by exact_mod_cast Nat.lt_of_lt_of_le (by norm_num) hn
    positivity
  have hge : (60 : ℚ) ≤ q := by
    rw [hqdef, le_div_iff₀ (by norm_num : (0:ℚ) < 1000000000)]
    have hcast : (60000000000 : ℚ) ≤ (n : ℚ) := by exact_mod_cast hn
    linarith
  have h1 := ratExp_le_self q hq
  have h2 := self_lt_ratExp_succ q hq
  have he5 : 5 ≤ ratExp q.num.toNat q.den := by
    have h32 : (2:ℚ) ^ (5:ℤ) < (2:ℚ) ^ (ratExp q.num.toNat q.den + 1) := by
      calc (2:ℚ) ^ (5:ℤ) = 32 := by norm_num
        _ < 60 := by norm_num
        _ ≤ q := hge
        _ < _ := h2
    have := (zpow_lt_zpow_iff_right₀ one_lt_two).mp h32
    omega
  have hEeq : max (ratExp q.num.toNat q.den) (-1022) = ratExp q.num.toNat q.den :=
    max_eq_left (by omega)
  by_cases h64 : q < (2:ℚ) ^ (6:ℤ)
  · -- exponent is exactly 5: the double is m / 2^47 with m at least 60 * 2^47
    have he6 : ratExp q.num.toNat q.den < 6 :=
      (zpow_lt_zpow_iff_right₀ one_lt_two).mp (lt_of_le_of_lt h1 h64)
    have he : ratExp q.num.toNat q.den = 5 := by omega
    simp only [flPos]
    rw [if_neg (not_le.mpr hq), hEeq, he]
    have hint : ((60 * 2 ^ 47 : ℤ) : ℚ) = (60:ℚ) * 2 ^ ((52:ℤ) - 5) := by
      push_cast
      norm_num
    have hx60 : (60:ℚ) * 2 ^ ((52:ℤ) - 5) ≤ q * 2 ^ ((52:ℤ) - 5) :=
      mul_le_mul_of_nonneg_right hge (le_of_lt (zpow_pos (by norm_num) _))
    have hb := roundHalfEven_ge (q * 2 ^ ((52:ℤ) - 5))
    have hm : ((60 * 2 ^ 47 : ℤ) : ℚ) - 1 <
        ((roundHalfEven (q * 2 ^ ((52:ℤ) - 5)) : ℤ) : ℚ) := by
      rw [hint]
      norm_num at hx60 hb ⊢
      linarith [hx60, hb]
    have hm2 : (60 * 2 ^ 47 : ℤ) ≤ roundHalfEven (q * 2 ^ ((52:ℤ) - 5)) := by
      have h3 : (60 * 2 ^ 47 : ℤ) - 1 < roundHalfEven (q * 2 ^ ((52:ℤ) - 5)) := by
        exact_mod_cast hm
      omega
    calc (60:ℚ) = ((60 * 2 ^ 47 : ℤ) : ℚ) * 2 ^ ((5:ℤ) - 52) := by
          rw [hint, mul_assoc, ← zpow_add₀ (two_ne_zero : (2:ℚ) ≠ 0),
            show (52:ℤ) - 5 + (5 - 52) = 0 by ring, zpow_zero, mul_one]
      _ ≤ _ := mul_le_mul_of_nonneg_right (by exact_mod_cast hm2)
          (le_of_lt (zpow_pos (by norm_num) _))
  · -- exponent at least 6: the double is at least 64 - 2^(-47)
    push_neg at h64
    have he6 : 6 ≤ ratExp q.num.toNat q.den := by
      have h6 : (2:ℚ) ^ (6:ℤ) < (2:ℚ) ^ (ratExp q.num.toNat q.den + 1) :=
        lt_of_le_of_lt h64 h2
      have := (zpow_lt_zpow_iff_right₀ one_lt_two).mp h6
      omega
    have hsub := flPos_ge_sub q hq
    rw [hEeq] at hsub
    set r : ℤ := ratExp q.num.toNat q.den with hr
    have hqr : (2:ℚ) ^ r ≤ q := h1
    have key : (2:ℚ) ^ r - 2 ^ (r - 53) = 2 ^ (r - 53) * (2 ^ (53:ℤ) - 1) := by
      rw [mul_sub, ← zpow_add₀ (two_ne_zero : (2:ℚ) ≠ 0),
        show r - 53 + 53 = r by ring]
      ring
    have hmono : (2:ℚ) ^ (-(47:ℤ)) ≤ 2 ^ (r - 53) :=
      zpow_le_zpow_right₀ one_le_two (by omega)
    calc (60:ℚ) ≤ 2 ^ (-(47:ℤ)) * (2 ^ (53:ℤ) - 1) := by norm_num
      _ ≤ 2 ^ (r - 53) * (2 ^ (53:ℤ) - 1) :=
          mul_le_mul_of_nonneg_right hmono (by norm_num)
      _ = (2:ℚ) ^ r - 2 ^ (r - 53) := key.symm
      _ ≤ q - 2 ^ (r - 53) := by linarith
      _ ≤ flPos q := hsub

theorem flPos_eval (q : ℚ) (nm dn : ℕ) (e m : ℤ) (v : ℚ)
    (h0 : ¬ q ≤ 0)
    (hnum : q.num.toNat = nm) (hden : q.den = dn)
    (hre : ratExp nm dn = e) (hclamp : max e (-1022) = e)
    (hm : roundHalfEven (q * 2 ^ ((52:ℤ) - e)) = m)
    (hv : (m : ℚ) * 2 ^ (e - (52:ℤ)) = v) :
    flPos q = v := by
  simp only [flPos]
  rw [if_neg h0, hnum, hden, hre, hclamp, hm, hv]

theorem toFixed1_eq (x : ℚ) (t : ℕ) (h : ⌊x * 10 + 1 / 2⌋ = (t : ℤ)) :
    toFixed1 x = toString (t / 10) ++ "." ++ toString (t % 10) := by
  simp only [toFixed1, h, Int.toNat_natCast]

theorem toFixed2_eq (x : ℚ) (c : ℕ) (h : ⌊x * 100 + 1 / 2⌋ = (c : ℤ)) :
    toFixed2 x = toString (c / 100) ++ "." ++
      (if c % 100 < 10 then "0" ++ toString (c % 100) else toString (c % 100)) := by
  simp only [toFixed2, h, Int.toNat_natCast]

theorem formatDuration_lt (n : ℕ) (h : flPos ((n : ℚ) / 1000000000) < 60) :
    formatDuration n = toFixed2 (flPos ((n : ℚ) / 1000000000)) ++ "s" := by
  simp only [formatDuration]
  rw [if_pos h]

theorem formatDuration_ge (n : ℕ) (h : ¬ flPos ((n : ℚ) / 1000000000) < 60) :
    formatDuration n =
      toString (⌊flPos (flPos ((n : ℚ) / 1000000000) / 60)⌋) ++ "m " ++
      toString (⌊flPos ((n : ℚ) / 1000000000)⌋ % 60) ++ "s" := by
  simp only [formatDuration]
  rw [if_neg h]

theorem passRate_pos (r : TestResults) (h : 0 < r.totalScenarios) :
    passRate r = toFixed1 (flPos (flPos ((r.passedScenarios : ℚ) /
      (r.totalScenarios : ℚ)) * 100)) := by
  simp only [passRate]
  rw [if_pos h]

theorem passRate_zero (r : TestResults) (h : r.totalScenarios = 0) :
    passRate r = "0.0" := by
  simp [passRate, h]

theorem flPos_45 : flPos (45 : ℚ) = 45 := by
  refine flPos_eval 45 45 1 5 6333186975989760 45 (by norm_num)
    (by norm_num; try rfl) (by norm_num) ?_ (by norm_num) ?_ (by norm_num)
  · simp only [ratExp]
    norm_num [Nat.log2]
  · simp only [roundHalfEven]
    norm_num

theorem flPos_125 : flPos (125 : ℚ) = 125 := by
  refine flPos_eval 125 125 1 6 8796093022208000 125 (by norm_num)
    (by norm_num; try rfl) (by norm_num) ?_ (by norm_num) ?_ (by norm_num)
  · simp only [ratExp]
    norm_num [Nat.log2]
  · simp only [roundHalfEven]
    norm_num

theorem flPos_125_60 : flPos ((25 : ℚ) / 12) = 4691249611844267 / 2251799813685248 := by
  refine flPos_eval ((25:ℚ)/12) 25 12 1 4691249611844267
    (4691249611844267 / 2251799813685248) (by norm_num) (by norm_num; try rfl)
    (by norm_num; try rfl) ?_ (by norm_num) ?_ (by norm_num)
  · simp only [ratExp]
    norm_num [Nat.log2]
  · simp only [roundHalfEven]
    norm_num

theorem flPos_3_200 : flPos ((3 : ℚ) / 200) = 1080863910568919 / 72057594037927936 := by
  refine flPos_eval ((3:ℚ)/200) 3 200 (-7) 8646911284551352
    (1080863910568919 / 72057594037927936) (by norm_num) (by norm_num; try rfl)
    (by norm_num; try rfl) ?_ (by norm_num) ?_ (by norm_num)
  · simp only [ratExp]
    norm_num [Nat.log2]
  · simp only [roundHalfEven]
    norm_num

theorem flPos_2_3 : flPos ((2 : ℚ) / 3) = 6004799503160661 / 9007199254740992 := by
  refine flPos_eval ((2:ℚ)/3) 2 3 (-1) 6004799503160661
    (6004799503160661 / 9007199254740992) (by norm_num) (by norm_num; try rfl)
    (by norm_num; try rfl) ?_ (by norm_num) ?_ (by norm_num)
  · simp only [ratExp]
    norm_num [Nat.log2]
  · simp only [roundHalfEven]
    norm_num

theorem flPos_pct_2_3 : flPos ((150119987579016525 : ℚ) / 2251799813685248) =
    4691249611844266 / 70368744177664 := by
  refine flPos_eval ((150119987579016525:ℚ)/2251799813685248) 150119987579016525
    2251799813685248 6 4691249611844266 (4691249611844266 / 70368744177664)
    (by norm_num) (by norm_num; try rfl) (by norm_num; try rfl) ?_ (by norm_num) ?_
    (by norm_num)
  · simp only [ratExp]
    norm_num [Nat.log2]
  · simp only [roundHalfEven]
    norm_num

theorem flPos_23_80 : flPos ((23 : ℚ) / 80) = 2589569785738035 / 9007199254740992 := by
  refine flPos_eval ((23:ℚ)/80) 23 80 (-2) 5179139571476070
    (2589569785738035 / 9007199254740992) (by norm_num) (by norm_num; try rfl)
    (by norm_num; try rfl) ?_ (by norm_num) ?_ (by norm_num)
  · simp only [ratExp]
    norm_num [Nat.log2]
  · simp only [roundHalfEven]
    norm_num

theorem flPos_pct_23_80 : flPos ((64739244643450875 : ℚ) / 2251799813685248) =
    8092405580431359 / 281474976710656 := by
  refine flPos_eval ((64739244643450875:ℚ)/2251799813685248) 64739244643450875
    2251799813685248 4 8092405580431359 (8092405580431359 / 281474976710656)
    (by norm_num) (by norm_num; try rfl) (by norm_num; try rfl) ?_ (by norm_num) ?_
    (by norm_num)
  · simp only [ratExp]
    norm_num [Nat.log2]
  · simp only [roundHalfEven]
    norm_num

/-- C7 (amended): the pass rate is `"0.0"` when the total scenario count is
zero; otherwise it renders, with one fraction digit, the integer `t` closest
(ties up) to ten times the binary64 value of `(passed / total) * 100` — the
double the program formats, which can differ from the exact one-decimal
percentage at representation boundaries; on the sample document with 3
counted scenarios of which 2 passed it is `"66.7"`. -/
theorem generateComment_pass_rate :
    (∀ results : TestResults, results.totalScenarios = 0 →
      passRate results = "0.0") ∧
    (∀ results : TestResults, 0 < results.totalScenarios →
      ∃ t : ℕ,
        (2 * t : ℚ) - 1 ≤ 20 * flPos (flPos ((results.passedScenarios : ℚ) /
          (results.totalScenarios : ℚ)) * 100) ∧
        20 * flPos (flPos ((results.passedScenarios : ℚ) /
          (results.totalScenarios : ℚ)) * 100) < 2 * t + 1 ∧
        passRate results = toString (t / 10) ++ "." ++ toString (t % 10)) ∧
    (computeResults sampleThree).totalScenarios = 3 ∧
    (computeResults sampleThree).passedScenarios = 2 ∧
    passRate (computeResults sampleThree) = "66.7" := by
  refine ⟨?_, ?_, by rfl, by rfl, ?_⟩
  · intro r h
    exact passRate_zero r h
  · intro r h
    set x : ℚ := flPos (flPos ((r.passedScenarios : ℚ) /
      (r.totalScenarios : ℚ)) * 100) with hxdef
    have hx0 : (0:ℚ) ≤ x := flPos_nonneg _
    have hF0 : 0 ≤ ⌊x * 10 + 1/2⌋ :=
      Int.floor_nonneg.mpr (by positivity)
    have hc : ((⌊x * 10 + 1/2⌋.toNat : ℕ) : ℚ) = ((⌊x * 10 + 1/2⌋ : ℤ) : ℚ) := by
      exact_mod_cast Int.toNat_of_nonneg hF0
    have hfl1 : ((⌊x * 10 + 1/2⌋ : ℤ) : ℚ) ≤ x * 10 + 1/2 := Int.floor_le _
    have hfl2 : x * 10 + 1/2 < ((⌊x * 10 + 1/2⌋ : ℤ) : ℚ) + 1 := Int.lt_floor_add_one _
    refine ⟨(⌊x * 10 + 1/2⌋).toNat, ?_, ?_, ?_⟩
    · calc (2 * (⌊x * 10 + 1/2⌋.toNat : ℚ)) - 1
          = 2 * ((⌊x * 10 + 1/2⌋ : ℤ) : ℚ) - 1 := by rw [hc]
        _ ≤ 2 * (x * 10 + 1/2) - 1 := by linarith
        _ = 20 * x := by ring
    · calc (20 : ℚ) * x = 2 * (x * 10 + 1/2) - 1 := by ring
        _ < 2 * (((⌊x * 10 + 1/2⌋ : ℤ) : ℚ) + 1) - 1 := by linarith
        _ = 2 * (⌊x * 10 + 1/2⌋.toNat : ℚ) + 1 := by rw [hc]; ring
    · rw [passRate_pos r h, ← hxdef,
        toFixed1_eq x (⌊x * 10 + 1/2⌋).toNat (Int.toNat_of_nonneg hF0).symm]
  · have h3 : (computeResults sampleThree).totalScenarios = 3 := rfl
    have h2 : (computeResults sampleThree).passedScenarios = 2 := rfl
    rw [passRate_pos _ (by rw [h3]; norm_num), h2, h3]
    rw [show ((2:ℕ):ℚ)/((3:ℕ):ℚ) = (2:ℚ)/3 from by norm_num, flPos_2_3]
    rw [show (6004799503160661:ℚ)/9007199254740992 * 100 =
      (150119987579016525:ℚ)/2251799813685248 from by norm_num, flPos_pct_2_3]
    rw [toFixed1_eq _ 667 (by norm_num)]
    rfl

/-- Witness for C7: the zero-total clause at the empty results record, and
the positive-total clause at the sample three-scenario document. -/
theorem generateComment_pass_rate_witness :
    passRate emptyResults = "0.0" ∧
    (∃ t : ℕ,
      (2 * t : ℚ) - 1 ≤ 20 * flPos (flPos
        (((computeResults sampleThree).passedScenarios : ℚ) /
          ((computeResults sampleThree).totalScenarios : ℚ)) * 100) ∧
      20 * flPos (flPos (((computeResults sampleThree).passedScenarios : ℚ) /
        ((computeResults sampleThree).totalScenarios : ℚ)) * 100) < 2 * t + 1 ∧
      passRate (computeResults sampleThree) =
        toString (t / 10) ++ "." ++ toString (t % 10)) :=
  ⟨generateComment_pass_rate.1 emptyResults rfl,
   generateComment_pass_rate.2.1 (computeResults sampleThree) (by decide)⟩

set_option maxRecDepth 8000 in
/-- Counterexample for C7 as stated: for a document with 80 counted
scenarios of which 23 passed, the program renders the binary64 percentage as
`"28.7"`, while the exact one-decimal rendering of 23/80 expressed as a
percentage (the literal reading of the claim) is `"28.8"`. -/
theorem passRate_exact_rounding_counterexample :
    (computeResults cxDoc).totalScenarios = 80 ∧
    (computeResults cxDoc).passedScenarios = 23 ∧
    passRate (computeResults cxDoc) = "28.7" ∧
    exactPassRate (computeResults cxDoc) = "28.8" ∧
    passRate (computeResults cxDoc) ≠ exactPassRate (computeResults cxDoc) := by
  have ht : (computeResults cxDoc).totalScenarios = 80 := by rfl
  have hp : (computeResults cxDoc).passedScenarios = 23 := by rfl
  have h1 : passRate (computeResults cxDoc) = "28.7" := by
    rw [passRate_pos _ (by rw [ht]; norm_num), hp, ht]
    rw [show ((23:ℕ):ℚ)/((80:ℕ):ℚ) = (23:ℚ)/80 from by norm_num, flPos_23_80]
    rw [show (2589569785738035:ℚ)/9007199254740992 * 100 =
      (64739244643450875:ℚ)/2251799813685248 from by norm_num, flPos_pct_23_80]
    rw [toFixed1_eq _ 287 (by norm_num)]
    rfl
  have h2 : exactPassRate (computeResults cxDoc) = "28.8" := by rfl
  refine ⟨ht, hp, h1, h2, ?_⟩
  rw [h1, h2]
  decide

/-- C8 (amended): under 60 seconds, `formatDuration` renders, with two
fraction digits and an `s` suffix, the integer `c` closest (ties up) to one
hundred times the binary64 value of `nanoseconds / 1e9` — the double the
program formats, which can differ from the exact two-decimal rendering of
the true seconds at representation boundaries; otherwise it renders whole
minutes (the floor of the double quotient `seconds / 60`) and whole
remaining seconds as `<m>m <s>s`; 45 s and 125 s of nanoseconds give
`"45.00s"` and `"2m 5s"`. -/
theorem formatDuration_formatting :
    formatDuration 45000000000 = "45.00s" ∧
    formatDuration 125000000000 = "2m 5s" ∧
    (∀ n : ℕ, n < 60 * 1000000000 → ∃ c : ℕ,
      (2 * c : ℚ) - 1 ≤ 200 * flPos ((n : ℚ) / 1000000000) ∧
      200 * flPos ((n : ℚ) / 1000000000) < 2 * c + 1 ∧
      formatDuration n = toString (c / 100) ++ "." ++
        (if c % 100 < 10 then "0" ++ toString (c % 100)
         else toString (c % 100)) ++ "s") ∧
    (∀ n : ℕ, 60 * 1000000000 ≤ n →
      formatDuration n =
        toString (⌊flPos (flPos ((n : ℚ) / 1000000000) / 60)⌋) ++ "m " ++
        toString (⌊flPos ((n : ℚ) / 1000000000)⌋ % 60) ++ "s") := by
  refine ⟨?_, ?_, ?_, ?_⟩
  · have hlt := flPos_seconds_lt 45000000000 (by norm_num)
    rw [formatDuration_lt _ hlt]
    rw [show ((45000000000:ℕ):ℚ)/1000000000 = (45:ℚ) from by norm_num, flPos_45]
    rw [toFixed2_eq _ 4500 (by norm_num)]
    rfl
  · have hge := flPos_seconds_ge 125000000000 (by norm_num)
    rw [formatDuration_ge _ (not_lt.mpr hge)]
    rw [show ((125000000000:ℕ):ℚ)/1000000000 = (125:ℚ) from by norm_num, flPos_125]
    rw [show ((125:ℚ)/60) = (25:ℚ)/12 from by norm_num, flPos_125_60]
    rw [show ⌊(4691249611844267:ℚ)/2251799813685248⌋ = (2:ℤ) from by norm_num]
    rw [show ⌊(125:ℚ)⌋ = (125:ℤ) from by norm_num]
    rfl
  · intro n hn
    have hlt := flPos_seconds_lt n hn
    set x : ℚ := flPos ((n : ℚ) / 1000000000) with hxdef
    have hx0 : (0:ℚ) ≤ x := flPos_nonneg _
    have hF0 : 0 ≤ ⌊x * 100 + 1/2⌋ :=
      Int.floor_nonneg.mpr (by positivity)
    have hc : ((⌊x * 100 + 1/2⌋.toNat : ℕ) : ℚ) = ((⌊x * 100 + 1/2⌋ : ℤ) : ℚ) := by
      exact_mod_cast Int.toNat_of_nonneg hF0
    have hfl1 : ((⌊x * 100 + 1/2⌋ : ℤ) : ℚ) ≤ x * 100 + 1/2 := Int.floor_le _
    have hfl2 : x * 100 + 1/2 < ((⌊x * 100 + 1/2⌋ : ℤ) : ℚ) + 1 :=
      Int.lt_floor_add_one _
    refine ⟨(⌊x * 100 + 1/2⌋).toNat, ?_, ?_, ?_⟩
    · calc (2 * (⌊x * 100 + 1/2⌋.toNat : ℚ)) - 1
          = 2 * ((⌊x * 100 + 1/2⌋ : ℤ) : ℚ) - 1 := by rw [hc]
        _ ≤ 2 * (x * 100 + 1/2) - 1 := by linarith
        _ = 200 * x := by ring
    · calc (200 : ℚ) * x = 2 * (x * 100 + 1/2) - 1 := by ring
        _ < 2 * (((⌊x * 100 + 1/2⌋ : ℤ) : ℚ) + 1) - 1 := by linarith
        _ = 2 * (⌊x * 100 + 1/2⌋.toNat : ℚ) + 1 := by rw [hc]; ring
    · rw [formatDuration_lt n hlt, ← hxdef,
        toFixed2_eq x (⌊x * 100 + 1/2⌋).toNat (Int.toNat_of_nonneg hF0).symm]
  · intro n hn
    exact formatDuration_ge n (not_lt.mpr (flPos_seconds_ge n hn))

/-- Witness for C8: the under-a-minute clause at one nanosecond below 60 s,
and the minutes clause at 80 s of nanoseconds. -/
theorem formatDuration_formatting_witness :
    (∃ c : ℕ,
      (2 * c : ℚ) - 1 ≤ 200 * flPos (((59999999999:ℕ) : ℚ) / 1000000000) ∧
      200 * flPos (((59999999999:ℕ) : ℚ) / 1000000000) < 2 * c + 1 ∧
      formatDuration 59999999999 = toString (c / 100) ++ "." ++
        (if c % 100 < 10 then "0" ++ toString (c % 100)
         else toString (c % 100)) ++ "s") ∧
    formatDuration 80000000000 =
      toString (⌊flPos (flPos (((80000000000:ℕ) : ℚ) / 1000000000) / 60)⌋) ++
        "m " ++ toString (⌊flPos (((80000000000:ℕ) : ℚ) / 1000000000)⌋ % 60) ++ "s" :=
  ⟨formatDuration_formatting.2.2.1 59999999999 (by norm_num),
   formatDuration_formatting.2.2.2 80000000000 (by norm_num)⟩

/-- Counterexample for C8 as stated: at 15000000 ns (15 ms) the program
renders the binary64 seconds value as `"0.01s"`, while the exact two-decimal
rendering of 0.015 s (the literal reading of the claim) is `"0.02s"`. -/
theorem formatDuration_exact_rounding_counterexample :
    formatDuration 15000000 = "0.01s" ∧
    exactFormatDuration 15000000 = "0.02s" ∧
    formatDuration 15000000 ≠ exactFormatDuration 15000000 := by
  have h1 : formatDuration 15000000 = "0.01s" := by
    have hlt := flPos_seconds_lt 15000000 (by norm_num)
    rw [formatDuration_lt _ hlt]
    rw [show ((15000000:ℕ):ℚ)/1000000000 = (3:ℚ)/200 from by norm_num, flPos_3_200]
    rw [toFixed2_eq _ 1 (by norm_num)]
    rfl
  have h2 : exactFormatDuration 15000000 = "0.02s" := by rfl
  refine ⟨h1, h2, ?_⟩
  rw [h1, h2]
  decide
